import Mathlib

/-!
# Verification of `static/app.js` (resume/cover-letter builder client script)

Shallow embedding of the browser-side form-synchronizer script.  DOM elements
that may be absent on a given page variant are modelled as `Option` values;
element lookups and the guards the script performs on them are mirrored
one-to-one.  JavaScript strings are Lean `String`s; `String.prototype.trim`
is modelled by `jsTrim`, `split("\n")` by `String.splitOn "\n"`, and the
JSON values built by `JSON.stringify` by the `Json` inductive.
-/

namespace App

/-- Whitespace predicate used by `trim`.  JS `trim` strips Unicode whitespace;
for the ASCII inputs handled here this coincides with `Char.isWhitespace`. -/
def jsWs (c : Char) : Bool := c.isWhitespace

/-- Front-and-back whitespace strip on a character list. -/
def jsTrimList (l : List Char) : List Char :=
  ((l.dropWhile jsWs).reverse.dropWhile jsWs).reverse

/-- JS `String.prototype.trim`. -/
def jsTrim (s : String) : String := String.mk (jsTrimList s.toList)

/-- JS `a || b` on strings: `b` when `a` is falsy (empty), else `a`. -/
def jsOr (a b : String) : String := if a = "" then b else a

/-- Helper for `jsSplitNl`: accumulate the current segment (reversed). -/
def jsSplitNlAux : List Char → List Char → List String
  | [], acc => [String.mk acc.reverse]
  | c :: rest, acc =>
      if c = '\n' then String.mk acc.reverse :: jsSplitNlAux rest []
      else jsSplitNlAux rest (c :: acc)

/-- JS `s.split("\n")`: cut the string at every newline, keeping empty
segments (so `"a\n\nb\n"` gives `["a", "", "b", ""]`). -/
def jsSplitNl (s : String) : List String := jsSplitNlAux s.toList []

/-- Embedding of `splitBullets` (app.js lines 88-94): split the textarea text on newlines,
trim each line, drop empties, keep the first 8. -/
def splitBullets (text : String) : List String :=
  (((jsSplitNl text).map jsTrim).filter (fun x => x ≠ "")).take 8

/-- The five form fields of one `.job-card` (current DOM values). -/
structure JobCardFields where
  title : String
  company : String
  location : String
  dates : String
  bulletsText : String
deriving DecidableEq, Repr

/-- One entry of the synced jobs JSON (app.js line 114). -/
structure Job where
  title : String
  company : String
  location : String
  dates : String
  bullets : List String
deriving DecidableEq, Repr

/-- One entry of the collected polish payload (app.js line 133): the bullets
are carried as the raw textarea text under `bullets_text`. -/
structure JobRaw where
  title : String
  company : String
  location : String
  dates : String
  bullets_text : String
deriving DecidableEq, Repr

/-- The card-emptiness test of app.js lines 113 and 132:
`(title + company + location + dates + bulletsText).trim().length > 0`. -/
def cardNonEmpty (c : JobCardFields) : Bool :=
  decide (0 < (jsTrim (c.title ++ c.company ++ c.location ++ c.dates ++ c.bulletsText)).length)

/-- The job entry pushed by `syncJobsJson` for a non-empty card. -/
def jobOfCard (c : JobCardFields) : Job :=
  { title := c.title, company := c.company, location := c.location,
    dates := c.dates, bullets := splitBullets c.bulletsText }

/-- The entry pushed by `collectJobs` for a non-empty card. -/
def rawOfCard (c : JobCardFields) : JobRaw :=
  { title := c.title, company := c.company, location := c.location,
    dates := c.dates, bullets_text := c.bulletsText }

/-- The job list `syncJobsJson` serializes into the hidden field
(app.js lines 103-118): keep non-empty cards, cap at 6. -/
def syncJobsJsonList (cards : List JobCardFields) : List Job :=
  ((cards.filter cardNonEmpty).map jobOfCard).take 6

/-- Embedding of `collectJobs` (app.js lines 121-137). -/
def collectJobs (cards : List JobCardFields) : List JobRaw :=
  ((cards.filter cardNonEmpty).map rawOfCard).take 6

/-- JSON values as produced by `JSON.stringify` on the objects the script
builds (strings, arrays, objects with keys in insertion order). -/
inductive Json where
  | str : String → Json
  | arr : List Json → Json
  | obj : List (String × Json) → Json

/-- Key lookup in a JSON object's field list. -/
def jsonLookup (kvs : List (String × Json)) (k : String) : Option Json :=
  (kvs.find? (fun kv => kv.1 = k)).map (fun kv => kv.2)

/-- The object `{ title, company, location, dates, bullets }` pushed by
`syncJobsJson` (app.js line 114). -/
def jobToJson (j : Job) : List (String × Json) :=
  [("title", .str j.title), ("company", .str j.company),
   ("location", .str j.location), ("dates", .str j.dates),
   ("bullets", .arr (j.bullets.map .str))]

/-- The object `{ title, company, location, dates, bullets_text }` pushed by
`collectJobs` (app.js line 133). -/
def jobRawToJson (j : JobRaw) : List (String × Json) :=
  [("title", .str j.title), ("company", .str j.company),
   ("location", .str j.location), ("dates", .str j.dates),
   ("bullets_text", .str j.bullets_text)]

/-- The JSON value written into the hidden jobs field by `syncJobsJson`
(app.js line 118). -/
def syncJobsJsonValue (cards : List JobCardFields) : Json :=
  .arr ((syncJobsJsonList cards).map (fun j => .obj (jobToJson j)))

/-! ### Payload collection (app.js lines 218-228 and 366-382)

Each `getElementById` result is an `Option`; for value-bearing elements the
option carries the element's current string value. -/

/-- JS `el?.value || dflt`: `dflt` when the element is absent or its value
is the empty string. -/
def jsValueOr (el : Option String) (dflt : String) : String :=
  match el with
  | none => dflt
  | some v => jsOr v dflt

/-- The resume-page elements read by `collectResumePayload` (app.js lines
56-61 and 51): each may be absent on a given page variant. -/
structure ResumeDom where
  summaryEl : Option String
  winsEl : Option String
  skillsEl : Option String
  strengthsEl : Option String
  targetTitleEl : Option String
  yearsEl : Option String
  jobsWrap : Option (List JobCardFields)
deriving DecidableEq, Repr

/-- The record built by `collectResumePayload` (app.js lines 218-228). -/
structure ResumePayload where
  target_title : String
  years_experience : String
  strengths : String
  wins : String
  summary : String
  skills : String
  jobs : List JobRaw
deriving DecidableEq, Repr

/-- Embedding of `collectJobs` including its `if (!jobsWrap) return []` guard
(app.js line 122). -/
def collectJobsDom (jobsWrap : Option (List JobCardFields)) : List JobRaw :=
  match jobsWrap with
  | none => []
  | some cards => collectJobs cards

/-- Embedding of `collectResumePayload` (app.js lines 218-228). -/
def collectResumePayload (d : ResumeDom) : ResumePayload :=
  { target_title := jsValueOr d.targetTitleEl ""
    years_experience := jsValueOr d.yearsEl ""
    strengths := jsValueOr d.strengthsEl ""
    wins := jsValueOr d.winsEl ""
    summary := jsValueOr d.summaryEl ""
    skills := jsValueOr d.skillsEl ""
    jobs := collectJobsDom d.jobsWrap }

/-- The cover-letter-page elements read by `collectCoverPayload` (app.js
lines 336-351). -/
structure CoverDom where
  clFull : Option String
  clEmail : Option String
  clPhone : Option String
  clCompany : Option String
  clManager : Option String
  clRole : Option String
  clSource : Option String
  clStrengths : Option String
  clAch : Option String
  clWhy : Option String
  clClose : Option String
  clTone : Option String
  clLetter : Option String
deriving DecidableEq, Repr

/-- The record built by `collectCoverPayload` (app.js lines 366-382). -/
structure CoverPayload where
  tone : String
  full_name : String
  email : String
  phone : String
  company_name : String
  hiring_manager : String
  target_role : String
  job_source : String
  strengths : String
  achievements : String
  why_company : String
  closing_note : String
  cover_letter : String
deriving DecidableEq, Repr

/-- Embedding of `collectCoverPayload` (app.js lines 366-382); note the tone default is
`"confident"`, not the empty string. -/
def collectCoverPayload (d : CoverDom) : CoverPayload :=
  { tone := jsValueOr d.clTone "confident"
    full_name := jsValueOr d.clFull ""
    email := jsValueOr d.clEmail ""
    phone := jsValueOr d.clPhone ""
    company_name := jsValueOr d.clCompany ""
    hiring_manager := jsValueOr d.clManager ""
    target_role := jsValueOr d.clRole ""
    job_source := jsValueOr d.clSource ""
    strengths := jsValueOr d.clStrengths ""
    achievements := jsValueOr d.clAch ""
    why_company := jsValueOr d.clWhy ""
    closing_note := jsValueOr d.clClose ""
    cover_letter := jsValueOr d.clLetter "" }

/-! ### Auto-apply preference (app.js lines 78-86 and 353-357)

The preference is read live from a checkbox element; the script contains no
client-local storage reads or writes (no `localStorage` access appears
anywhere in app.js).  The browser model below carries a storage map anyway,
so that persistence across reloads can be stated: a reload rebuilds the DOM
from the static HTML while the storage survives. -/

structure BrowserPage where
  checkbox : Option Bool
  localStore : List (String × String)
deriving DecidableEq, Repr

/-- Embedding of `autoApplyOn` (app.js lines 81-86): obey the checkbox if present,
default off otherwise. -/
def autoApplyOn (p : BrowserPage) : Bool :=
  match p.checkbox with
  | none => false
  | some checked => checked

/-- Embedding of `clAutoOn` (app.js lines 354-357): same shape for the cover page. -/
def clAutoOn (p : BrowserPage) : Bool :=
  match p.checkbox with
  | none => false
  | some checked => checked

/-- A page reload: the DOM (hence the checkbox) is rebuilt from the static
HTML default, client-local storage persists.  The script restores nothing
from storage at load (it performs no storage access at all). -/
def reloadPage (htmlDefault : Option Bool) (p : BrowserPage) : BrowserPage :=
  { checkbox := htmlDefault, localStore := p.localStore }

/-! ### Preview swap (app.js lines 461-524)

`doSwap` guards on the payload form and result container, turns the
transition overlay on, fetches `/swap`, and on success replaces the
container markup and turns the overlay off; a thrown fetch error also turns
it off, while a non-OK response returns early. -/

/-- The `#resultWrap` container: its markup and its `data-font` attribute. -/
structure ResultWrap where
  innerHTML : String
  dataFont : Option String
deriving DecidableEq, Repr

/-- The elements used by the preview-swap block (app.js lines 461-466 plus
the `#dissolve` overlay of line 2); forms are their named input values in
document order. -/
structure SwapDom where
  dissolve : Option Bool
  templateSelect : Option String
  fontSelect : Option String
  pageLimitSelect : Option String
  resultWrap : Option ResultWrap
  payloadForm : Option (List (String × String))
  downloadForm : Option (List (String × String))
deriving DecidableEq, Repr

/-- Embedding of `showDissolve` (app.js lines 7-11): toggle the overlay's `on` class,
doing nothing when the overlay element is absent. -/
def swapShowDissolve (flag : Bool) (d : SwapDom) : SwapDom :=
  match d.dissolve with
  | none => d
  | some _ => { d with dissolve := some flag }

/-- Embedding of `form.querySelector('input[name=...]')` followed by `el.value = value`:
update the first input with that name, no-op when there is none
(app.js lines 28-32). -/
def setHiddenInputs : List (String × String) → String → String → List (String × String)
  | [], _, _ => []
  | kv :: rest, name, value =>
      if kv.1 = name then (kv.1, value) :: rest
      else kv :: setHiddenInputs rest name value

/-- Embedding of `setHidden` (app.js lines 28-32) including its `if (!form) return`. -/
def setHiddenForm (form : Option (List (String × String))) (name value : String) :
    Option (List (String × String)) :=
  match form with
  | none => none
  | some kvs => some (setHiddenInputs kvs name value)

/-- Embedding of `syncPreviewSettingsIntoForms` (app.js lines 468-486): mirror truthy
select values into both hidden forms; font also updates the container's
`data-font` attribute when the container exists. -/
def syncPreviewSettingsIntoForms (d : SwapDom) : SwapDom :=
  let d1 :=
    match d.templateSelect with
    | some tpl =>
        if tpl ≠ "" then
          { d with payloadForm := setHiddenForm d.payloadForm "template" tpl,
                   downloadForm := setHiddenForm d.downloadForm "template" tpl }
        else d
    | none => d
  let d2 :=
    match d1.fontSelect with
    | some font =>
        if font ≠ "" then
          { d1 with
            payloadForm := setHiddenForm d1.payloadForm "font_family" font,
            downloadForm := setHiddenForm d1.downloadForm "font_family" font,
            resultWrap := d1.resultWrap.map (fun (w : ResultWrap) => { w with dataFont := some font }) }
        else d1
    | none => d1
  match d2.pageLimitSelect with
  | some pages =>
      if pages ≠ "" then
        { d2 with payloadForm := setHiddenForm d2.payloadForm "page_limit" pages,
                  downloadForm := setHiddenForm d2.downloadForm "page_limit" pages }
      else d2
  | none => d2

/-- Outcome of the `fetch("/swap?...")` call. -/
inductive FetchResult where
  | ok (body : String)
  | notOk
  | threw
deriving DecidableEq, Repr

/-- Embedding of `doSwap` (app.js lines 488-510): guard, sync settings, overlay on,
fetch; on OK replace the container markup and overlay off; on a thrown
error overlay off; on a non-OK status return immediately. -/
def doSwap (d : SwapDom) (res : FetchResult) : SwapDom :=
  if d.payloadForm.isNone ∨ d.resultWrap.isNone then d
  else
    let d1 := syncPreviewSettingsIntoForms d
    let d2 := swapShowDissolve true d1
    match res with
    | .notOk => d2
    | .ok html =>
        let d3 := { d2 with
          resultWrap := d2.resultWrap.map (fun rw => { rw with innerHTML := html }) }
        swapShowDissolve false d3
    | .threw => swapShowDissolve false d2

/-! ### Auto-apply timer (app.js lines 230-239 and 384-393)

`scheduleAutoApplySummary` / `scheduleClAutoApply` guard on the target
field and the toggle, then replace the pending timer with a new one that,
when it fires, writes the captured text unless it trims to empty.  Input
listeners on the tracked fields (app.js lines 183-188, 316-325, 437-447)
never clear this timer — only a later schedule call replaces it.  The trace
model below makes the event loop's choices explicit; `writes` is a ghost
log of the texts the timer callback actually wrote into the field. -/

structure AutoApplyState where
  fieldVal : String
  pending : Option String
  writes : List String
deriving DecidableEq, Repr

inductive AutoEvent where
  /-- A call to `scheduleAutoApplySummary(text)` / `scheduleClAutoApply(text)`
  (issued from a successful polish response). -/
  | schedule (text : String)
  /-- The pending `setTimeout` callback runs (the delay elapsed without the
  timer being replaced). -/
  | fire
  /-- A user input event on the target field: the field takes the typed
  value; no listener clears the auto-apply timer. -/
  | input (s : String)
deriving DecidableEq, Repr

/-- One event-loop step of the auto-apply subsystem.  `fieldExists` is the
presence of the target element, `toggleOn` the checkbox state. -/
def autoStep (fieldExists toggleOn : Bool) (st : AutoApplyState) (e : AutoEvent) :
    AutoApplyState :=
  match e with
  | .schedule text =>
      if fieldExists = false then st
      else if toggleOn = false then st
      else { st with pending := some text }
  | .fire =>
      match st.pending with
      | none => st
      | some text =>
          if (jsTrim text).length = 0 then { st with pending := none }
          else { fieldVal := text, pending := none, writes := st.writes ++ [text] }
  | .input s => { st with fieldVal := s }

/-- Run a whole event trace. -/
def autoRun (fieldExists toggleOn : Bool) (st : AutoApplyState)
    (events : List AutoEvent) : AutoApplyState :=
  events.foldl (autoStep fieldExists toggleOn) st

/-! ### Debounce timers (app.js lines 310-313 and 431-434)

`requestResumePolishDebounced` / `requestCoverPolishDebounced` clear the
pending timer and start a fresh one (delay 380 ms resp. 360 ms).  The model
processes the input-event times in order; a pending timer whose deadline
has passed fires (one request) before the next input is handled, and the
input then always replaces the pending timer. -/

structure DebounceState where
  pending : Option Nat
  fired : Nat
deriving DecidableEq, Repr

/-- Handle one input event at time `t`: first let a pending timer whose
deadline `d ≤ t` fire (issuing its request), then `clearTimeout` +
`setTimeout(fn, delay)`. -/
def debStep (delay : Nat) (s : DebounceState) (t : Nat) : DebounceState :=
  let s1 : DebounceState :=
    match s.pending with
    | some d => if d ≤ t then { pending := none, fired := s.fired + 1 } else s
    | none => s
  { pending := some (t + delay), fired := s1.fired }

/-- Process all input events (times in arrival order) starting idle. -/
def debRun (delay : Nat) (ts : List Nat) : DebounceState :=
  ts.foldl (debStep delay) ⟨none, 0⟩

/-- Total number of requests issued once the quiet period after the last
input has elapsed (a still-pending timer then fires). -/
def debTotalFired (delay : Nat) (ts : List Nat) : Nat :=
  let s := debRun delay ts
  s.fired + (if s.pending.isSome then 1 else 0)

/-! ### Instrumented whole-script model (C9, C10)

Every element the `DOMContentLoaded` handler looks up is a field of
`FullDom`; a field is `none` on page variants where the element is absent.
The operations below are written in `Except String`: every property access
on a possibly-`null` element goes through `getEl!`, which raises the
`TypeError` the browser would raise, and every guard the source performs is
mirrored in place.  Proving the runs return `.ok` shows the error branch of
every such access is unreachable.  The hidden jobs field holds the JSON
value itself (the script stores its `JSON.stringify` rendering). -/

/-- Dereference a nullable element: the spot where missing-element
`TypeError`s would occur. -/
def getEl! {α : Type} (el : Option α) : Except String α :=
  match el with
  | none => Except.error "TypeError: cannot read properties of null"
  | some x => Except.ok x

/-- All elements the script looks up (app.js lines 2, 50-79, 333-361,
461-466), with the current value/state each carries. -/
structure FullDom where
  dissolve : Option Bool
  builderForm : Option Unit
  jobsWrap : Option (List JobCardFields)
  addJobBtn : Option Unit
  jobsJsonField : Option Json
  summaryEl : Option String
  winsEl : Option String
  skillsEl : Option String
  strengthsEl : Option String
  targetTitleEl : Option String
  yearsEl : Option String
  autoApplyEl : Option Bool
  sugSummaryBox : Option Bool
  sugSummaryText : Option String
  sugSummaryApply : Option Unit
  sugWinsBox : Option Bool
  sugWinsList : Option (List String)
  sugWinsApply : Option Unit
  sugSkillsBox : Option Bool
  sugSkillsText : Option String
  sugSkillsApply : Option Unit
  sugHint : Option String
  coverForm : Option Unit
  clPolishBtn : Option Unit
  clFull : Option String
  clEmail : Option String
  clPhone : Option String
  clCompany : Option String
  clManager : Option String
  clRole : Option String
  clSource : Option String
  clStrengths : Option String
  clAch : Option String
  clWhy : Option String
  clClose : Option String
  clTone : Option String
  clLetter : Option String
  clAutoApply : Option Bool
  clSugBox : Option Bool
  clSugText : Option String
  clSugApply : Option Unit
  templateSelect : Option String
  fontSelect : Option String
  pageLimitSelect : Option String
  resultWrap : Option ResultWrap
  payloadForm : Option (List (String × String))
  downloadForm : Option (List (String × String))

/-- The resume-payload elements within the full page. -/
def toResumeDom (d : FullDom) : ResumeDom :=
  ⟨d.summaryEl, d.winsEl, d.skillsEl, d.strengthsEl, d.targetTitleEl,
   d.yearsEl, d.jobsWrap⟩

/-- The cover-payload elements within the full page. -/
def toCoverDom (d : FullDom) : CoverDom :=
  ⟨d.clFull, d.clEmail, d.clPhone, d.clCompany, d.clManager, d.clRole,
   d.clSource, d.clStrengths, d.clAch, d.clWhy, d.clClose, d.clTone,
   d.clLetter⟩

/-- Embedding of `autoApplyOn` (app.js lines 81-86) over the full page. -/
def autoApplyChecked (d : FullDom) : Bool :=
  match d.autoApplyEl with
  | none => false
  | some checked => checked

/-- Embedding of `clAutoOn` (app.js lines 354-357) over the full page. -/
def clAutoChecked (d : FullDom) : Bool :=
  match d.clAutoApply with
  | none => false
  | some checked => checked

/-- Embedding of `showDissolve` (app.js lines 7-11): guard, then touch the class list. -/
def showDissolveE (d : FullDom) (flag : Bool) : Except String FullDom :=
  if d.dissolve.isNone then Except.ok d
  else do
    let _ ← getEl! d.dissolve
    Except.ok { d with dissolve := some flag }

/-- Embedding of `showBox` (app.js lines 13-16): guard, then set the display style. -/
def showBoxE (box : Option Bool) (flag : Bool) : Except String (Option Bool) :=
  if box.isNone then Except.ok box
  else do
    let _ ← getEl! box
    Except.ok (some flag)

/-- Embedding of `setList` (app.js lines 18-26): guard, clear, append one li per item. -/
def setListE (ul : Option (List String)) (items : List String) :
    Except String (Option (List String)) :=
  if ul.isNone then Except.ok ul
  else do
    let _ ← getEl! ul
    Except.ok (some items)

/-- Embedding of `setHidden` (app.js lines 28-32): guard the form, then update the
input if present. -/
def setHiddenE (form : Option (List (String × String))) (name value : String) :
    Except String (Option (List (String × String))) :=
  if form.isNone then Except.ok form
  else do
    let kvs ← getEl! form
    Except.ok (some (setHiddenInputs kvs name value))

/-- Embedding of `syncJobsJson` (app.js lines 96-119) in the instrumented model. -/
def syncJobsJsonE (d : FullDom) : Except String FullDom :=
  if d.jobsJsonField.isNone then Except.ok d
  else if d.jobsWrap.isNone then do
    let _ ← getEl! d.jobsJsonField
    Except.ok { d with jobsJsonField := some (Json.arr []) }
  else do
    let cards ← getEl! d.jobsWrap
    let _ ← getEl! d.jobsJsonField
    Except.ok { d with jobsJsonField := some (syncJobsJsonValue cards) }

/-- A freshly built job card: its template markup always contains the
`.job-remove` button, so that lookup succeeds by construction. -/
structure BuiltCard where
  fields : JobCardFields
  removeBtn : Option Unit

/-- Embedding of `makeJobCard({})` (app.js lines 139-191): build the card, then attach
the remove listener (dereferencing the card's own remove button). -/
def makeJobCardE : Except String BuiltCard := do
  let card : BuiltCard := { fields := ⟨"", "", "", "", ""⟩, removeBtn := some () }
  let _ ← getEl! card.removeBtn
  Except.ok card

/-- The requests the script can issue over HTTP. -/
inductive SentRequest where
  | polish (p : ResumePayload)
  | polishCover (p : CoverPayload)
  | swapReq (params : List (String × String))

/-- Whole-script state: the DOM, the two auto-apply timers, and a ghost log
of issued requests. -/
structure ScriptState where
  dom : FullDom
  resumeAutoPending : Option String
  clAutoPending : Option String
  requests : List SentRequest

def initState (d : FullDom) : ScriptState := ⟨d, none, none, []⟩

/-- The `/polish` response JSON (spec §6): fields optional, non-arrays
treated as empty by the `Array.isArray` checks. -/
structure PolishData where
  polished_summary : Option String
  bullets : Option (List String)
  skills_suggested : Option (List String)
  metric_hints : Option (List String)

/-- Outcome of a `/polish` fetch. -/
inductive PolishFetch where
  | ok (data : PolishData)
  | notOk
  | threw

/-- The `/polish_cover` response JSON. -/
structure CoverData where
  cover_letter_suggested : Option String

/-- Outcome of a `/polish_cover` fetch. -/
inductive CoverFetch where
  | ok (data : CoverData)
  | notOk
  | threw

/-- Embedding of `scheduleAutoApplySummary` (app.js lines 230-239): guards only, then
replace the pending timer; no element dereference happens here. -/
def scheduleAutoApplySummaryE (st : ScriptState) (text : String) : ScriptState :=
  if st.dom.summaryEl.isNone then st
  else if autoApplyChecked st.dom = false then st
  else { st with resumeAutoPending := some text }

/-- Embedding of `scheduleClAutoApply` (app.js lines 384-393). -/
def scheduleClAutoApplyE (st : ScriptState) (text : String) : ScriptState :=
  if st.dom.clLetter.isNone then st
  else if clAutoChecked st.dom = false then st
  else { st with clAutoPending := some text }

/-- The resume auto-apply timer callback (app.js lines 235-238): skip
blank text, otherwise write `summaryEl.value`.  The dereference is safe
because the timer is only ever set after the `!summaryEl` guard. -/
def fireResumeAutoApplyE (st : ScriptState) : Except String ScriptState :=
  if st.resumeAutoPending.isNone then Except.ok st
  else
    let text := st.resumeAutoPending.getD ""
    if (jsTrim text).length = 0 then
      Except.ok { st with resumeAutoPending := none }
    else do
      let _ ← getEl! st.dom.summaryEl
      Except.ok { st with dom := { st.dom with summaryEl := some text },
                          resumeAutoPending := none }

/-- The cover auto-apply timer callback (app.js lines 389-392). -/
def fireClAutoApplyE (st : ScriptState) : Except String ScriptState :=
  if st.clAutoPending.isNone then Except.ok st
  else
    let text := st.clAutoPending.getD ""
    if (jsTrim text).length = 0 then
      Except.ok { st with clAutoPending := none }
    else do
      let _ ← getEl! st.dom.clLetter
      Except.ok { st with dom := { st.dom with clLetter := some text },
                          clAutoPending := none }

/-- The `sugSummaryText` block of the polish response handler (app.js
lines 261-264). -/
def renderSummarySugE (summarySuggested : String) (d : FullDom) :
    Except String FullDom :=
  if d.sugSummaryText.isNone then Except.ok d
  else do
    let _ ← getEl! d.sugSummaryText
    let box ← showBoxE d.sugSummaryBox (decide (0 < summarySuggested.length))
    Except.ok { d with sugSummaryText := some summarySuggested, sugSummaryBox := box }

/-- The `sugWinsList` block (app.js lines 266-269). -/
def renderWinsSugE (bullets : List String) (d : FullDom) : Except String FullDom :=
  if d.sugWinsList.isNone then Except.ok d
  else do
    let ul ← setListE d.sugWinsList bullets
    let box ← showBoxE d.sugWinsBox (decide (0 < bullets.length))
    Except.ok { d with sugWinsList := ul, sugWinsBox := box }

/-- The `sugSkillsText` block (app.js lines 271-274). -/
def renderSkillsSugE (skillsSuggested : String) (d : FullDom) : Except String FullDom :=
  if d.sugSkillsText.isNone then Except.ok d
  else do
    let _ ← getEl! d.sugSkillsText
    let box ← showBoxE d.sugSkillsBox (decide (0 < (jsTrim skillsSuggested).length))
    Except.ok { d with sugSkillsText := some skillsSuggested, sugSkillsBox := box }

/-- The `sugHint` block (app.js lines 276-279). -/
def renderHintE (hints : List String) (d : FullDom) : Except String FullDom :=
  if d.sugHint.isNone then Except.ok d
  else do
    let _ ← getEl! d.sugHint
    Except.ok { d with sugHint := some (match hints with | [] => "" | h :: _ => h) }

/-- Embedding of `requestResumePolish` (app.js lines 241-308) as one atomic cycle with
its fetch outcome: guard, collect and send the payload, then distribute
the response into the suggestion elements and schedule auto-apply. -/
def requestResumePolishE (st : ScriptState) (res : PolishFetch) :
    Except String ScriptState :=
  if st.dom.summaryEl.isNone ∧ st.dom.winsEl.isNone ∧ st.dom.skillsEl.isNone
      ∧ st.dom.jobsWrap.isNone then Except.ok st
  else
    let payload := collectResumePayload (toResumeDom st.dom)
    let st := { st with requests := st.requests ++ [SentRequest.polish payload] }
    match res with
    | .threw => Except.ok st
    | .notOk => Except.ok st
    | .ok data => do
        let summarySuggested := jsTrim (data.polished_summary.getD "")
        let d ← renderSummarySugE summarySuggested st.dom
        let d ← renderWinsSugE (data.bullets.getD []) d
        let d ← renderSkillsSugE (String.intercalate ", " (data.skills_suggested.getD [])) d
        let d ← renderHintE (data.metric_hints.getD []) d
        let st := { st with dom := d }
        let st :=
          if summarySuggested ≠ "" ∧ st.dom.summaryEl.isSome then
            scheduleAutoApplySummaryE st summarySuggested
          else st
        Except.ok st

/-- The `clSugText` block of the cover response handler (app.js lines
411-414). -/
def renderClSugE (suggested : String) (d : FullDom) : Except String FullDom :=
  if d.clSugText.isNone then Except.ok d
  else do
    let _ ← getEl! d.clSugText
    let box ← showBoxE d.clSugBox (decide (0 < suggested.length))
    Except.ok { d with clSugText := some suggested, clSugBox := box }

/-- Embedding of `requestCoverPolish` (app.js lines 395-429) as one atomic cycle. -/
def requestCoverPolishE (st : ScriptState) (res : CoverFetch) :
    Except String ScriptState :=
  if st.dom.clLetter.isNone ∧ st.dom.clCompany.isNone ∧ st.dom.clRole.isNone then
    Except.ok st
  else
    let payload := collectCoverPayload (toCoverDom st.dom)
    let st := { st with requests := st.requests ++ [SentRequest.polishCover payload] }
    match res with
    | .threw => Except.ok st
    | .notOk => Except.ok st
    | .ok data => do
        let suggested := jsTrim (data.cover_letter_suggested.getD "")
        let d ← renderClSugE suggested st.dom
        let st := { st with dom := d }
        let st :=
          if suggested ≠ "" ∧ st.dom.clLetter.isSome then
            scheduleClAutoApplyE st suggested
          else st
        Except.ok st

/-- JS truthiness of `sel ? sel.value : null`: false when the select is
absent or its value is the empty string. -/
def jsTruthy (o : Option String) : Bool :=
  match o with
  | none => false
  | some v => v != ""

/-- The template stage of `syncPreviewSettingsIntoForms` (app.js lines
473-476). -/
def syncTemplateE (d : FullDom) : Except String FullDom :=
  if jsTruthy d.templateSelect then do
    let tpl := (d.templateSelect.getD "")
    let pf ← setHiddenE d.payloadForm "template" tpl
    let df ← setHiddenE d.downloadForm "template" tpl
    Except.ok { d with payloadForm := pf, downloadForm := df }
  else Except.ok d

/-- Embedding of `if (resultWrap) resultWrap.setAttribute("data-font", font)`
(app.js line 480). -/
def setDataFontE (w : Option ResultWrap) (font : String) :
    Except String (Option ResultWrap) :=
  if w.isNone then Except.ok w
  else do
    let rwEl ← getEl! w
    Except.ok (some { rwEl with dataFont := some font })

/-- The font stage (app.js lines 477-481), including the `data-font`
attribute update on the container when it exists. -/
def syncFontE (d : FullDom) : Except String FullDom :=
  if jsTruthy d.fontSelect then do
    let font := (d.fontSelect.getD "")
    let pf ← setHiddenE d.payloadForm "font_family" font
    let df ← setHiddenE d.downloadForm "font_family" font
    let w ← setDataFontE d.resultWrap font
    Except.ok { d with payloadForm := pf, downloadForm := df, resultWrap := w }
  else Except.ok d

/-- The page-limit stage (app.js lines 482-485). -/
def syncPagesE (d : FullDom) : Except String FullDom :=
  if jsTruthy d.pageLimitSelect then do
    let pages := (d.pageLimitSelect.getD "")
    let pf ← setHiddenE d.payloadForm "page_limit" pages
    let df ← setHiddenE d.downloadForm "page_limit" pages
    Except.ok { d with payloadForm := pf, downloadForm := df }
  else Except.ok d

/-- Embedding of `syncPreviewSettingsIntoForms` (app.js lines 468-486) in the
instrumented model. -/
def syncPreviewSettingsE (d : FullDom) : Except String FullDom := do
  let d ← syncTemplateE d
  let d ← syncFontE d
  syncPagesE d

/-- Embedding of `doSwap` (app.js lines 488-510) as one atomic cycle in the
instrumented model. -/
def doSwapE (st : ScriptState) (res : FetchResult) : Except String ScriptState :=
  if st.dom.payloadForm.isNone ∨ st.dom.resultWrap.isNone then Except.ok st
  else do
    let d ← syncPreviewSettingsE st.dom
    let kvs ← getEl! d.payloadForm
    let st := { st with dom := d, requests := st.requests ++ [SentRequest.swapReq kvs] }
    let d ← showDissolveE st.dom true
    let st := { st with dom := d }
    match res with
    | .notOk => Except.ok st
    | .ok html => do
        let w ← getEl! st.dom.resultWrap
        let d := { st.dom with resultWrap := some { w with innerHTML := html } }
        let d ← showDissolveE d false
        Except.ok { st with dom := d }
    | .threw => do
        let d ← showDissolveE st.dom false
        Except.ok { st with dom := d }

/-- Write a value into an element only if it is present (user input cannot
target an absent element). -/
def overwriteVal (old : Option String) (v : String) : Option String :=
  old.map (fun _ => v)

def overwriteFlag (old : Option Bool) (b : Bool) : Option Bool :=
  old.map (fun _ => b)

/-- The jobs-area initialisation at load (app.js lines 193-205): when the
wrap and button exist and the wrap is empty, append a fresh empty card and
sync the hidden field. -/
def jobsInitE (d : FullDom) : Except String FullDom :=
  if d.jobsWrap.isNone ∨ d.addJobBtn.isNone then Except.ok d
  else do
    let cards ← getEl! d.jobsWrap
    if cards.length = 0 then do
      let card ← makeJobCardE
      syncJobsJsonE { d with jobsWrap := some (cards ++ [card.fields]) }
    else Except.ok d

/-- The user-visible and network events the page can experience after
load; async operations carry their fetch outcome. -/
inductive PageEvent where
  | navClick
  | addJobClick (res : PolishFetch)
  | removeJobClick (i : Nat) (res : PolishFetch)
  | jobCardInput (i : Nat) (c : JobCardFields)
  | builderSubmit
  | summaryInput (v : String)
  | winsInput (v : String)
  | skillsInput (v : String)
  | strengthsInput (v : String)
  | targetTitleInput (v : String)
  | yearsInput (v : String)
  | autoApplyToggle (b : Bool)
  | resumeDebounceFire (res : PolishFetch)
  | resumeAutoFire
  | coverInput (vals : CoverPayload)
  | clToggle (b : Bool)
  | clPolishClick (res : CoverFetch)
  | coverDebounceFire (res : CoverFetch)
  | clAutoFire
  | templateChange (v : String) (res : FetchResult)
  | fontChange (v : String) (res : FetchResult)
  | pageLimitChange (v : String)
  | downloadSubmit

/-- Embedding of `addJobBtn` click handler (app.js lines 194-199); the listener exists
only when both the wrap and the button do. -/
def addJobClickE (st : ScriptState) (res : PolishFetch) : Except String ScriptState :=
  if st.dom.jobsWrap.isNone ∨ st.dom.addJobBtn.isNone then Except.ok st
  else do
    let cards ← getEl! st.dom.jobsWrap
    if cards.length ≥ 3 then Except.ok st
    else do
      let card ← makeJobCardE
      let d ← syncJobsJsonE { st.dom with jobsWrap := some (cards ++ [card.fields]) }
      requestResumePolishE { st with dom := d } res

/-- A card's remove-button handler (app.js lines 177-181). -/
def removeJobClickE (st : ScriptState) (i : Nat) (res : PolishFetch) :
    Except String ScriptState :=
  if st.dom.jobsWrap.isNone then Except.ok st
  else do
    let cards ← getEl! st.dom.jobsWrap
    let d ← syncJobsJsonE { st.dom with jobsWrap := some (cards.eraseIdx i) }
    requestResumePolishE { st with dom := d } res

/-- Typing into a card's inputs (app.js lines 183-188): update the card,
sync, and schedule the debounced polish (no immediate request). -/
def jobCardInputE (st : ScriptState) (i : Nat) (c : JobCardFields) :
    Except String ScriptState :=
  if st.dom.jobsWrap.isNone then Except.ok st
  else do
    let cards ← getEl! st.dom.jobsWrap
    let d ← syncJobsJsonE { st.dom with jobsWrap := some (cards.set i c) }
    Except.ok { st with dom := d }

/-- Embedding of `builderForm` submit handler (app.js lines 207-212). -/
def builderSubmitE (st : ScriptState) : Except String ScriptState :=
  if st.dom.builderForm.isNone then Except.ok st
  else do
    let d ← syncJobsJsonE st.dom
    let d ← showDissolveE d true
    Except.ok { st with dom := d }

/-- Typing into the cover form (app.js lines 437-447): present elements
take the typed values; the only further effect is the debounced polish. -/
def coverInputE (st : ScriptState) (vals : CoverPayload) : ScriptState :=
  if st.dom.coverForm.isNone then st
  else
    { st with dom := { st.dom with
        clFull := overwriteVal st.dom.clFull vals.full_name
        clEmail := overwriteVal st.dom.clEmail vals.email
        clPhone := overwriteVal st.dom.clPhone vals.phone
        clCompany := overwriteVal st.dom.clCompany vals.company_name
        clManager := overwriteVal st.dom.clManager vals.hiring_manager
        clRole := overwriteVal st.dom.clRole vals.target_role
        clSource := overwriteVal st.dom.clSource vals.job_source
        clStrengths := overwriteVal st.dom.clStrengths vals.strengths
        clAch := overwriteVal st.dom.clAch vals.achievements
        clWhy := overwriteVal st.dom.clWhy vals.why_company
        clClose := overwriteVal st.dom.clClose vals.closing_note
        clTone := overwriteVal st.dom.clTone vals.tone
        clLetter := overwriteVal st.dom.clLetter vals.cover_letter } }

/-- Embedding of `clPolishBtn` click (app.js lines 449-451): listener exists only on the
cover page with the button present. -/
def clPolishClickE (st : ScriptState) (res : CoverFetch) : Except String ScriptState :=
  if st.dom.coverForm.isNone ∨ st.dom.clPolishBtn.isNone then Except.ok st
  else requestCoverPolishE st res

/-- Embedding of `templateSelect` change (app.js line 512): the listener exists only
when select, container and payload form are all present. -/
def templateChangeE (st : ScriptState) (v : String) (res : FetchResult) :
    Except String ScriptState :=
  if st.dom.templateSelect.isNone ∨ st.dom.resultWrap.isNone
      ∨ st.dom.payloadForm.isNone then Except.ok st
  else
    doSwapE { st with dom := { st.dom with templateSelect := some v } } res

/-- Embedding of `fontSelect` change (app.js line 513). -/
def fontChangeE (st : ScriptState) (v : String) (res : FetchResult) :
    Except String ScriptState :=
  if st.dom.fontSelect.isNone ∨ st.dom.resultWrap.isNone
      ∨ st.dom.payloadForm.isNone then Except.ok st
  else
    doSwapE { st with dom := { st.dom with fontSelect := some v } } res

/-- Embedding of `pageLimitSelect` change (app.js line 514): only resyncs the forms. -/
def pageLimitChangeE (st : ScriptState) (v : String) : Except String ScriptState :=
  if st.dom.pageLimitSelect.isNone then Except.ok st
  else do
    let d ← syncPreviewSettingsE { st.dom with pageLimitSelect := some v }
    Except.ok { st with dom := d }

/-- Embedding of `downloadForm` submit (app.js lines 516-522): sync, overlay on, and
the 240 ms later overlay off. -/
def downloadSubmitE (st : ScriptState) : Except String ScriptState :=
  if st.dom.downloadForm.isNone then Except.ok st
  else do
    let d ← syncPreviewSettingsE st.dom
    let d ← showDissolveE d true
    let d ← showDissolveE d false
    Except.ok { st with dom := d }

/-- Dispatch one event. -/
def stepE (st : ScriptState) (e : PageEvent) : Except String ScriptState :=
  match e with
  | .navClick => do
      let d ← showDissolveE st.dom true
      Except.ok { st with dom := d }
  | .addJobClick res => addJobClickE st res
  | .removeJobClick i res => removeJobClickE st i res
  | .jobCardInput i c => jobCardInputE st i c
  | .builderSubmit => builderSubmitE st
  | .summaryInput v =>
      Except.ok { st with dom := { st.dom with summaryEl := overwriteVal st.dom.summaryEl v } }
  | .winsInput v =>
      Except.ok { st with dom := { st.dom with winsEl := overwriteVal st.dom.winsEl v } }
  | .skillsInput v =>
      Except.ok { st with dom := { st.dom with skillsEl := overwriteVal st.dom.skillsEl v } }
  | .strengthsInput v =>
      Except.ok { st with dom := { st.dom with strengthsEl := overwriteVal st.dom.strengthsEl v } }
  | .targetTitleInput v =>
      Except.ok { st with dom := { st.dom with targetTitleEl := overwriteVal st.dom.targetTitleEl v } }
  | .yearsInput v =>
      Except.ok { st with dom := { st.dom with yearsEl := overwriteVal st.dom.yearsEl v } }
  | .autoApplyToggle b =>
      Except.ok { st with dom := { st.dom with autoApplyEl := overwriteFlag st.dom.autoApplyEl b } }
  | .resumeDebounceFire res => requestResumePolishE st res
  | .resumeAutoFire => fireResumeAutoApplyE st
  | .coverInput vals => Except.ok (coverInputE st vals)
  | .clToggle b =>
      Except.ok { st with dom := { st.dom with clAutoApply := overwriteFlag st.dom.clAutoApply b } }
  | .clPolishClick res => clPolishClickE st res
  | .coverDebounceFire res => requestCoverPolishE st res
  | .clAutoFire => fireClAutoApplyE st
  | .templateChange v res => templateChangeE st v res
  | .fontChange v res => fontChangeE st v res
  | .pageLimitChange v => pageLimitChangeE st v
  | .downloadSubmit => downloadSubmitE st

/-- The load-time flow of the handler relevant to state: jobs-area init
(lines 193-205), the unconditional initial `requestResumePolish()` (line
328), the cover-page initial `requestCoverPolish()` (lines 437-455), and
the final `syncPreviewSettingsIntoForms()` (line 524). -/
def onLoadE (st : ScriptState) (p : PolishFetch) (c : CoverFetch) :
    Except String ScriptState := do
  let d ← jobsInitE st.dom
  let st ← requestResumePolishE { st with dom := d } p
  let st ← if st.dom.coverForm.isSome then requestCoverPolishE st c else Except.ok st
  let d ← syncPreviewSettingsE st.dom
  Except.ok { st with dom := d }

/-- Run a list of events. -/
def runEventsE : ScriptState → List PageEvent → Except String ScriptState
  | st, [] => Except.ok st
  | st, e :: rest =>
      match stepE st e with
      | .error msg => .error msg
      | .ok st' => runEventsE st' rest

/-- A whole session: load, then any sequence of events. -/
def runScriptE (d : FullDom) (p : PolishFetch) (c : CoverFetch)
    (events : List PageEvent) : Except String ScriptState := do
  let st ← onLoadE (initState d) p c
  runEventsE st events

/-- Did the computation finish without a raised error? -/
def exceptOk {α : Type} : Except String α → Bool
  | .ok _ => true
  | .error _ => false

/-- The invariant behind the timer callbacks' safety: an auto-apply timer
is only ever pending while its target element exists — exactly what the
schedule-time guards establish. -/
def Inv (st : ScriptState) : Prop :=
  (st.resumeAutoPending.isSome → st.dom.summaryEl.isSome) ∧
  (st.clAutoPending.isSome → st.dom.clLetter.isSome)

/-- The element-presence and value facts preserved by every suggestion or
preview-sync operation: the auto-apply targets and toggles, the whole cover
form, and presence of the swap form and container. -/
structure DomFrame (dNew dOld : FullDom) : Prop where
  summaryEq : dNew.summaryEl = dOld.summaryEl
  clLetterEq : dNew.clLetter = dOld.clLetter
  autoApplyEq : dNew.autoApplyEl = dOld.autoApplyEl
  clAutoEq : dNew.clAutoApply = dOld.clAutoApply
  coverEq : toCoverDom dNew = toCoverDom dOld
  coverFormEq : dNew.coverForm = dOld.coverForm
  payloadSomeEq : dNew.payloadForm.isSome = dOld.payloadForm.isSome
  resultSomeEq : dNew.resultWrap.isSome = dOld.resultWrap.isSome
  winsEq : dNew.winsEl = dOld.winsEl
  skillsEq : dNew.skillsEl = dOld.skillsEl
  strengthsEq : dNew.strengthsEl = dOld.strengthsEl
  targetTitleEq : dNew.targetTitleEl = dOld.targetTitleEl
  yearsEq : dNew.yearsEl = dOld.yearsEl

/-- The `/polish` request issued by one `requestResumePolish` call: none
when the skip guard (app.js line 243) fires, else the collected payload. -/
def resumeReqIf (d : FullDom) : List SentRequest :=
  if d.summaryEl.isNone ∧ d.winsEl.isNone ∧ d.skillsEl.isNone ∧ d.jobsWrap.isNone
  then []
  else [SentRequest.polish (collectResumePayload (toResumeDom d))]

/-- The `/polish_cover` request issued by one `requestCoverPolish` call:
none when the skip guard (app.js line 396) fires. -/
def coverReqIf (d : FullDom) : List SentRequest :=
  if d.clLetter.isNone ∧ d.clCompany.isNone ∧ d.clRole.isNone
  then []
  else [SentRequest.polishCover (collectCoverPayload (toCoverDom d))]

/-! ### Basic facts about `jsTrim` -/

theorem jsTrimList_eq_rdropWhile (l : List Char) :
    jsTrimList l = List.rdropWhile jsWs (List.dropWhile jsWs l) := rfl

/-- A list already stripped on the left stays stripped on the left after
stripping on the right. -/
theorem dropWhile_rdropWhile_of_dropWhile_eq_self {m : List Char}
    (hm : List.dropWhile jsWs m = m) :
    List.dropWhile jsWs (List.rdropWhile jsWs m) = List.rdropWhile jsWs m := by
  obtain ⟨u, hu⟩ := List.dropWhile_suffix (l := m.reverse) jsWs
  have hm2 : m = List.rdropWhile jsWs m ++ u.reverse := by
    have h1 := congrArg List.reverse hu
    simpa [List.rdropWhile] using h1.symm
  cases hB2 : List.rdropWhile jsWs m with
  | nil => simp
  | cons a t =>
    by_cases ha : jsWs a = true
    · exfalso
      rw [hB2, List.cons_append] at hm2
      rw [hm2, List.dropWhile_cons, if_pos ha] at hm
      have h4 := congrArg List.length hm
      have h5 := (List.dropWhile_suffix (l := t ++ u.reverse) jsWs).length_le
      simp only [List.length_cons] at h4
      omega
    · rw [List.dropWhile_cons, if_neg ha]

theorem jsTrimList_idem (l : List Char) : jsTrimList (jsTrimList l) = jsTrimList l := by
  rw [jsTrimList_eq_rdropWhile, jsTrimList_eq_rdropWhile,
    dropWhile_rdropWhile_of_dropWhile_eq_self (List.dropWhile_idempotent jsWs l),
    List.rdropWhile_idempotent]

theorem toList_mk (l : List Char) : (String.mk l).toList = l := rfl

theorem jsTrim_idem (s : String) : jsTrim (jsTrim s) = jsTrim s := by
  unfold jsTrim
  rw [toList_mk, jsTrimList_idem]

/-! ### C1: shape of the synced jobs JSON -/

theorem length_splitBullets_le (text : String) : (splitBullets text).length ≤ 8 :=
  List.length_take_le _ _

theorem mem_splitBullets {b : String} {text : String} (hb : b ∈ splitBullets text) :
    jsTrim b = b ∧ b ≠ "" := by
  have h1 := List.mem_of_mem_take hb
  have h2 := List.mem_filter.mp h1
  obtain ⟨x, _, hx⟩ := List.mem_map.mp h2.1
  refine ⟨?_, by simpa using h2.2⟩
  rw [← hx, jsTrim_idem]

/-- C1: for every set of 0-3 job cards with arbitrary field contents, the
value `syncJobsJson` writes into the hidden jobs field is a sequence of at
most 6 entries, containing an entry exactly for those cards whose
concatenated fields are non-empty after trimming, and each entry's bullets
array (split on newlines, trimmed, empties dropped) has at most 8 elements,
each non-empty after trimming. -/
theorem C1_syncJobsJson_shape (cards : List JobCardFields) (h : cards.length ≤ 3) :
    (syncJobsJsonList cards).length ≤ 6 ∧
    syncJobsJsonList cards = (cards.filter cardNonEmpty).map jobOfCard ∧
    ∀ j ∈ syncJobsJsonList cards,
      j.bullets.length ≤ 8 ∧ ∀ b ∈ j.bullets, jsTrim b ≠ "" := by
  have hlen : ((cards.filter cardNonEmpty).map jobOfCard).length ≤ 3 := by
    rw [List.length_map]
    exact le_trans (List.length_filter_le _ _) h
  have heq : syncJobsJsonList cards = (cards.filter cardNonEmpty).map jobOfCard :=
    List.take_of_length_le (le_trans hlen (by omega))
  refine ⟨List.length_take_le _ _, heq, ?_⟩
  intro j hj
  rw [heq] at hj
  obtain ⟨c, _, rfl⟩ := List.mem_map.mp hj
  refine ⟨length_splitBullets_le _, fun b hb => ?_⟩
  have h2 := mem_splitBullets hb
  rw [h2.1]
  exact h2.2

/-- Witness for C1 at a concrete two-card input (one empty card, one card
with two bullet lines, one of them blank). -/
theorem C1_witness :
    (syncJobsJsonList [⟨"Area Manager", "Amazon", "", "2021", "a \nb\n\n"⟩,
        ⟨"", "", "", "", ""⟩]).length ≤ 6 ∧
    syncJobsJsonList [⟨"Area Manager", "Amazon", "", "2021", "a \nb\n\n"⟩,
        ⟨"", "", "", "", ""⟩]
      = (([⟨"Area Manager", "Amazon", "", "2021", "a \nb\n\n"⟩,
          ⟨"", "", "", "", ""⟩] : List JobCardFields).filter cardNonEmpty).map jobOfCard ∧
    ∀ j ∈ syncJobsJsonList [⟨"Area Manager", "Amazon", "", "2021", "a \nb\n\n"⟩,
        ⟨"", "", "", "", ""⟩],
      j.bullets.length ≤ 8 ∧ ∀ b ∈ j.bullets, jsTrim b ≠ "" :=
  C1_syncJobsJson_shape _ (by decide)

/-- C2 counterexample: for the job card whose bullets textarea contains
`"Led team\n\nGrew revenue 20%\n"`, the synced JSON does contain the bullets
list `["Led team", "Grew revenue 20%"]`, but the collected payload's job
object has no `bullets` key at all: `collectJobs` carries the raw textarea
text under `bullets_text` instead, so the claim's "both ... contain the
bullets list" is false for the collected payload. -/
theorem C2_counterexample :
    (syncJobsJsonList [⟨"", "", "", "", "Led team\n\nGrew revenue 20%\n"⟩]).map Job.bullets
      = [["Led team", "Grew revenue 20%"]] ∧
    (collectJobs [⟨"", "", "", "", "Led team\n\nGrew revenue 20%\n"⟩]).map
        (fun j => jsonLookup (jobRawToJson j) "bullets")
      = [none] :=
  ⟨by decide, rfl⟩

/-- C2 amended: entering bullets text `"Led team\n\nGrew revenue 20%\n"`
into a job card yields bullets `["Led team", "Grew revenue 20%"]` (blank
line dropped) in the synced JSON; the collected payload instead carries the
raw text `"Led team\n\nGrew revenue 20%\n"` under its `bullets_text` key,
the text from which `splitBullets` derives that same list. -/
theorem C2_amended :
    (syncJobsJsonList [⟨"", "", "", "", "Led team\n\nGrew revenue 20%\n"⟩]).map Job.bullets
      = [["Led team", "Grew revenue 20%"]] ∧
    (collectJobs [⟨"", "", "", "", "Led team\n\nGrew revenue 20%\n"⟩]).map JobRaw.bullets_text
      = ["Led team\n\nGrew revenue 20%\n"] ∧
    splitBullets "Led team\n\nGrew revenue 20%\n" = ["Led team", "Grew revenue 20%"] := by
  refine ⟨by decide, by decide, by decide⟩

/-- C4 counterexample: the auto-apply value does not survive a page reload.
With the checkbox switched on (`checked = true`) the preference reads on,
but after a reload (checkbox back to its HTML default, storage untouched —
the script never writes client-local storage) it reads off again. -/
theorem C4_counterexample :
    autoApplyOn ⟨some true, []⟩ = true ∧
    autoApplyOn (reloadPage (some false) ⟨some true, []⟩) = false :=
  ⟨rfl, rfl⟩

/-- C4 amended: the auto-apply preference for each page is a boolean read
live from a DOM checkbox, independent per page, defaulting to off when the
checkbox is absent; it is not persisted in client-local storage (its value
is independent of the storage contents and after a reload it is the HTML
default, regardless of the pre-reload value). -/
theorem C4_checkbox_not_persisted (c htmlDefault : Option Bool)
    (ls ls' : List (String × String)) :
    autoApplyOn ⟨c, ls⟩ = autoApplyOn ⟨c, ls'⟩ ∧
    clAutoOn ⟨c, ls⟩ = clAutoOn ⟨c, ls'⟩ ∧
    autoApplyOn ⟨none, ls⟩ = false ∧
    clAutoOn ⟨none, ls⟩ = false ∧
    autoApplyOn (reloadPage htmlDefault ⟨c, ls⟩) = htmlDefault.getD false ∧
    clAutoOn (reloadPage htmlDefault ⟨c, ls⟩) = htmlDefault.getD false := by
  cases htmlDefault <;> simp [autoApplyOn, clAutoOn, reloadPage]

/-- C8 counterexample: `collectCoverPayload` does not give the empty string
to every field whose element is missing — with every element absent, the
tone field defaults to `"confident"`. -/
theorem C8_counterexample :
    (collectCoverPayload
        ⟨none, none, none, none, none, none, none, none, none, none, none,
          none, none⟩).tone = "confident" ∧
    ("confident" : String) ≠ "" :=
  ⟨rfl, by decide⟩

/-- C8 amended: `collectResumePayload` and `collectCoverPayload` are pure
reads of current field values into a plain record with no validation; every
field whose element is missing defaults to the empty string (and the jobs
list to the empty list), except the cover tone field, which defaults to
`"confident"`. -/
theorem C8_collect_defaults (rd : ResumeDom) (cd : CoverDom) :
    (rd.targetTitleEl = none → (collectResumePayload rd).target_title = "") ∧
    (rd.yearsEl = none → (collectResumePayload rd).years_experience = "") ∧
    (rd.strengthsEl = none → (collectResumePayload rd).strengths = "") ∧
    (rd.winsEl = none → (collectResumePayload rd).wins = "") ∧
    (rd.summaryEl = none → (collectResumePayload rd).summary = "") ∧
    (rd.skillsEl = none → (collectResumePayload rd).skills = "") ∧
    (rd.jobsWrap = none → (collectResumePayload rd).jobs = []) ∧
    (cd.clFull = none → (collectCoverPayload cd).full_name = "") ∧
    (cd.clEmail = none → (collectCoverPayload cd).email = "") ∧
    (cd.clPhone = none → (collectCoverPayload cd).phone = "") ∧
    (cd.clCompany = none → (collectCoverPayload cd).company_name = "") ∧
    (cd.clManager = none → (collectCoverPayload cd).hiring_manager = "") ∧
    (cd.clRole = none → (collectCoverPayload cd).target_role = "") ∧
    (cd.clSource = none → (collectCoverPayload cd).job_source = "") ∧
    (cd.clStrengths = none → (collectCoverPayload cd).strengths = "") ∧
    (cd.clAch = none → (collectCoverPayload cd).achievements = "") ∧
    (cd.clWhy = none → (collectCoverPayload cd).why_company = "") ∧
    (cd.clClose = none → (collectCoverPayload cd).closing_note = "") ∧
    (cd.clLetter = none → (collectCoverPayload cd).cover_letter = "") ∧
    (cd.clTone = none → (collectCoverPayload cd).tone = "confident") := by
  refine ⟨?_, ?_, ?_, ?_, ?_, ?_, ?_, ?_, ?_, ?_, ?_, ?_, ?_, ?_, ?_, ?_,
    ?_, ?_, ?_, ?_⟩ <;>
    (intro h; simp [collectResumePayload, collectCoverPayload, collectJobsDom,
      jsValueOr, h])

/-- Witness for C8 amended: evaluated at pages with every element absent. -/
theorem C8_collect_defaults_witness :
    (collectResumePayload ⟨none, none, none, none, none, none, none⟩).summary = "" ∧
    (collectResumePayload ⟨none, none, none, none, none, none, none⟩).jobs = [] ∧
    (collectCoverPayload
        ⟨none, none, none, none, none, none, none, none, none, none, none,
          none, none⟩).tone = "confident" := by
  obtain ⟨-, -, -, -, h5, -, h7, -, -, -, -, -, -, -, -, -, -, -, -, h20⟩ :=
    C8_collect_defaults ⟨none, none, none, none, none, none, none⟩
      ⟨none, none, none, none, none, none, none, none, none, none, none,
        none, none⟩
  exact ⟨h5 rfl, h7 rfl, h20 rfl⟩

/-- C3 (evaluation at the failing input): on a non-OK `/swap` response the
result container's markup is left unchanged, but the transition overlay is
NOT cleared — `doSwap` returns before any `showDissolve(false)` call, so
the overlay's `on` class set before the fetch stays set. -/
theorem C3_notOk_leaves_overlay_on :
    (doSwap ⟨some false, some "modern", some "Inter", none,
        some ⟨"old markup", none⟩,
        some [("template", ""), ("font_family", "")], none⟩ .notOk).dissolve
      = some true ∧
    ((doSwap ⟨some false, some "modern", some "Inter", none,
        some ⟨"old markup", none⟩,
        some [("template", ""), ("font_family", "")], none⟩ .notOk).resultWrap).map
        ResultWrap.innerHTML
      = some "old markup" :=
  ⟨rfl, rfl⟩

/-- C5 counterexample: with the toggle on, an input event arriving during
the auto-apply delay window does not cancel the pending write — after
`[schedule "Polished summary.", input "user edit", fire]` the timer
callback still overwrites the field with the suggested text. -/
theorem C5_counterexample :
    (autoRun true true ⟨"", none, []⟩
        [.schedule "Polished summary.", .input "user edit", .fire]).writes
      = ["Polished summary."] ∧
    (autoRun true true ⟨"", none, []⟩
        [.schedule "Polished summary.", .input "user edit", .fire]).fieldVal
      = "Polished summary." :=
  ⟨by decide, by decide⟩

/-- Step preservation for the auto-apply write invariant. -/
theorem autoStep_writes_invariant (fe tog : Bool) (full : List AutoEvent)
    (e : AutoEvent) (he : e ∈ full) (st : AutoApplyState)
    (hw : ∀ w ∈ st.writes,
      jsTrim w ≠ "" ∧ fe = true ∧ tog = true ∧ AutoEvent.schedule w ∈ full)
    (hp : ∀ t, st.pending = some t →
      fe = true ∧ tog = true ∧ AutoEvent.schedule t ∈ full) :
    (∀ w ∈ (autoStep fe tog st e).writes,
      jsTrim w ≠ "" ∧ fe = true ∧ tog = true ∧ AutoEvent.schedule w ∈ full) ∧
    (∀ t, (autoStep fe tog st e).pending = some t →
      fe = true ∧ tog = true ∧ AutoEvent.schedule t ∈ full) := by
  cases e with
  | schedule text =>
      cases fe with
      | false => exact ⟨hw, hp⟩
      | true =>
          cases tog with
          | false => exact ⟨hw, hp⟩
          | true =>
              refine ⟨hw, ?_⟩
              intro t ht
              simp only [autoStep] at ht
              simp at ht
              subst ht
              exact ⟨rfl, rfl, he⟩
  | fire =>
      cases hpend : st.pending with
      | none =>
          constructor
          · simp only [autoStep, hpend]
            exact hw
          · simp only [autoStep, hpend]
            intro t ht
            exact absurd ht (by simp)
      | some text =>
          by_cases hlen : (jsTrim text).length = 0
          · simp only [autoStep, hpend, if_pos hlen]
            exact ⟨hw, by intro t ht; simp at ht⟩
          · simp only [autoStep, hpend, if_neg hlen]
            constructor
            · intro w hwmem
              rw [List.mem_append] at hwmem
              rcases hwmem with h | h
              · exact hw w h
              · rw [List.mem_singleton] at h
                subst h
                obtain ⟨h1, h2, h3⟩ := hp w hpend
                exact ⟨fun hc => hlen (by rw [hc]; rfl), h1, h2, h3⟩
            · intro t ht
              simp at ht
  | input s => exact ⟨hw, hp⟩

/-- Fold preservation for the auto-apply write invariant. -/
theorem autoRun_writes_invariant (fe tog : Bool) (full : List AutoEvent) :
    ∀ (events : List AutoEvent), (∀ e ∈ events, e ∈ full) →
    ∀ st : AutoApplyState,
      (∀ w ∈ st.writes,
        jsTrim w ≠ "" ∧ fe = true ∧ tog = true ∧ AutoEvent.schedule w ∈ full) →
      (∀ t, st.pending = some t →
        fe = true ∧ tog = true ∧ AutoEvent.schedule t ∈ full) →
      ∀ w ∈ (autoRun fe tog st events).writes,
        jsTrim w ≠ "" ∧ fe = true ∧ tog = true ∧ AutoEvent.schedule w ∈ full := by
  intro events
  induction events with
  | nil => exact fun _ st hw _ w hwmem => hw w hwmem
  | cons e rest ih =>
      intro hsub st hw hp
      obtain ⟨hw', hp'⟩ := autoStep_writes_invariant fe tog full e
        (hsub e (List.mem_cons_self e rest)) st hw hp
      exact ih (fun x hx => hsub x (List.mem_cons_of_mem _ hx))
        (autoStep fe tog st e) hw' hp'

/-- C5 amended: whatever texts the scheduled auto-apply writes into the
target field, each is non-empty after trimming, was the argument of a
schedule call in the trace, and was written only while the target field
existed and the toggle was on.  (Input events during the delay window do
not cancel the pending write; only a later schedule call replaces it.) -/
theorem C5_auto_apply_writes (fe tog : Bool) (v : String)
    (events : List AutoEvent) :
    ∀ w ∈ (autoRun fe tog ⟨v, none, []⟩ events).writes,
      jsTrim w ≠ "" ∧ fe = true ∧ tog = true ∧ AutoEvent.schedule w ∈ events :=
  autoRun_writes_invariant fe tog events events (fun _ h => h) ⟨v, none, []⟩
    (by simp) (by simp)

/-- Witness for C5 amended at a concrete trace that performs one write. -/
theorem C5_auto_apply_writes_witness :
    jsTrim "Great summary." ≠ "" ∧ (true : Bool) = true ∧ (true : Bool) = true ∧
      AutoEvent.schedule "Great summary." ∈
        ([.schedule "Great summary.", .fire] : List AutoEvent) :=
  C5_auto_apply_writes true true "" [.schedule "Great summary.", .fire]
    "Great summary." (by decide)

/-- Helper for C6: with the toggle off no timer is ever set, so the write
log never grows. -/
theorem autoRun_toggle_off_aux (fe : Bool) :
    ∀ (events : List AutoEvent) (st : AutoApplyState), st.pending = none →
      (autoRun fe false st events).writes = st.writes ∧
      (autoRun fe false st events).pending = none := by
  intro events
  induction events with
  | nil => exact fun st h => ⟨rfl, h⟩
  | cons e rest ih =>
      intro st h
      have hstep : (autoStep fe false st e).writes = st.writes ∧
          (autoStep fe false st e).pending = none := by
        cases e with
        | schedule text => cases fe <;> simp [autoStep, h]
        | fire => simp [autoStep, h]
        | input s => simp [autoStep, h]
      have hrest := ih (autoStep fe false st e) hstep.2
      exact ⟨hstep.1 ▸ hrest.1, hrest.2⟩

/-- C6: for every suggested text and every execution in which the
auto-apply feature toggle is off throughout, auto-apply never overwrites
the target field (summary on the resume page, letter on the cover page):
the write log of any event trace stays empty. -/
theorem C6_toggle_off_never_writes (fe : Bool) (v : String)
    (events : List AutoEvent) :
    (autoRun fe false ⟨v, none, []⟩ events).writes = [] :=
  (autoRun_toggle_off_aux fe events ⟨v, none, []⟩ rfl).1

/-- Helper for C7: during a burst whose gaps stay below the delay, the
pending timer is always replaced before its deadline, so nothing fires. -/
theorem debRun_aux (delay : Nat) :
    ∀ (ts : List Nat) (t k : Nat),
      List.Chain' (fun a b => a ≤ b ∧ b < a + delay) (t :: ts) →
      (ts.foldl (debStep delay) ⟨some (t + delay), k⟩).fired = k ∧
      (ts.foldl (debStep delay) ⟨some (t + delay), k⟩).pending.isSome = true := by
  intro ts
  induction ts with
  | nil => exact fun t k _ => ⟨rfl, rfl⟩
  | cons t1 rest ih =>
      intro t k hchain
      rw [List.chain'_cons] at hchain
      have hstep : debStep delay ⟨some (t + delay), k⟩ t1 = ⟨some (t1 + delay), k⟩ := by
        simp [debStep, Nat.not_le.mpr hchain.1.2]
      rw [List.foldl_cons, hstep]
      exact ih t1 k hchain.2

/-- C7: for every burst of N ≥ 1 input events on tracked fields in which
each event arrives within the debounce window of the previous one, no
request fires during the burst and exactly one request fires once the
window elapses — each new event cancels the previously scheduled request
of its class.  (`delay` is 380 for the resume class, 360 for the cover
class.) -/
theorem C7_debounce_single_request (delay t0 : Nat) (ts : List Nat)
    (hchain : List.Chain' (fun a b => a ≤ b ∧ b < a + delay) (t0 :: ts)) :
    (debRun delay (t0 :: ts)).fired = 0 ∧ debTotalFired delay (t0 :: ts) = 1 := by
  have h0 : debStep delay ⟨none, 0⟩ t0 = ⟨some (t0 + delay), 0⟩ := rfl
  have haux := debRun_aux delay ts t0 0 hchain
  constructor
  · show (List.foldl (debStep delay) ⟨none, 0⟩ (t0 :: ts)).fired = 0
    rw [List.foldl_cons, h0]
    exact haux.1
  · simp only [debTotalFired, debRun, List.foldl_cons, h0]
    rw [haux.1, haux.2]
    rfl

/-- Witness for C7: three inputs at 0, 100, 200 ms with a 380 ms window
produce exactly one request. -/
theorem C7_witness :
    (debRun 380 [0, 100, 200]).fired = 0 ∧ debTotalFired 380 [0, 100, 200] = 1 :=
  C7_debounce_single_request 380 0 [100, 200]
    (by norm_num [List.chain'_cons])

/-! ### Totality of the instrumented operations (C9) -/

theorem exBind_ok {α β : Type} (a : α) (f : α → Except String β) :
    (Except.ok a >>= f : Except String β) = f a := rfl

theorem showBoxE_eq (box : Option Bool) (flag : Bool) :
    showBoxE box flag = Except.ok (box.map (fun _ => flag)) := by
  cases box <;> rfl

theorem setListE_eq (ul : Option (List String)) (items : List String) :
    setListE ul items = Except.ok (ul.map (fun _ => items)) := by
  cases ul <;> rfl

theorem setHiddenE_eq (form : Option (List (String × String))) (name value : String) :
    setHiddenE form name value
      = Except.ok (form.map (fun kvs => setHiddenInputs kvs name value)) := by
  cases form <;> rfl

theorem domFrame_refl (d : FullDom) : DomFrame d d :=
  ⟨rfl, rfl, rfl, rfl, rfl, rfl, rfl, rfl, rfl, rfl, rfl, rfl, rfl⟩

theorem domFrame_trans {a b c : FullDom} (hba : DomFrame b a) (hcb : DomFrame c b) :
    DomFrame c a :=
  ⟨hcb.summaryEq.trans hba.summaryEq, hcb.clLetterEq.trans hba.clLetterEq,
   hcb.autoApplyEq.trans hba.autoApplyEq, hcb.clAutoEq.trans hba.clAutoEq,
   hcb.coverEq.trans hba.coverEq, hcb.coverFormEq.trans hba.coverFormEq,
   hcb.payloadSomeEq.trans hba.payloadSomeEq,
   hcb.resultSomeEq.trans hba.resultSomeEq,
   hcb.winsEq.trans hba.winsEq, hcb.skillsEq.trans hba.skillsEq,
   hcb.strengthsEq.trans hba.strengthsEq,
   hcb.targetTitleEq.trans hba.targetTitleEq, hcb.yearsEq.trans hba.yearsEq⟩

theorem showDissolveE_ok (d : FullDom) (flag : Bool) :
    ∃ d', showDissolveE d flag = Except.ok d' ∧ DomFrame d' d := by
  unfold showDissolveE
  by_cases hd : d.dissolve.isNone
  · rw [if_pos hd]
    exact ⟨d, rfl, domFrame_refl d⟩
  · rw [if_neg hd]
    rcases hdd : d.dissolve with _ | b
    · rw [hdd] at hd
      simp at hd
    · exact ⟨_, rfl, ⟨rfl, rfl, rfl, rfl, rfl, rfl, rfl, rfl, rfl, rfl, rfl, rfl, rfl⟩⟩

theorem syncJobsJsonE_ok (d : FullDom) :
    ∃ d', syncJobsJsonE d = Except.ok d' ∧ DomFrame d' d ∧
      d'.jobsWrap = d.jobsWrap := by
  unfold syncJobsJsonE
  by_cases hj : d.jobsJsonField.isNone
  · rw [if_pos hj]
    exact ⟨d, rfl, domFrame_refl d, rfl⟩
  · rw [if_neg hj]
    by_cases hw : d.jobsWrap.isNone
    · rw [if_pos hw]
      rcases hjf : d.jobsJsonField with _ | j
      · rw [hjf] at hj
        simp at hj
      · exact ⟨_, rfl, ⟨rfl, rfl, rfl, rfl, rfl, rfl, rfl, rfl, rfl, rfl, rfl, rfl, rfl⟩, rfl⟩
    · rw [if_neg hw]
      rcases hww : d.jobsWrap with _ | cards
      · rw [hww] at hw
        simp at hw
      · rcases hjf : d.jobsJsonField with _ | j
        · rw [hjf] at hj
          simp at hj
        · exact ⟨_, rfl, ⟨rfl, rfl, rfl, rfl, rfl, rfl, rfl, rfl, rfl, rfl, rfl, rfl, rfl⟩, rfl⟩

theorem renderSummarySugE_ok (txt : String) (d : FullDom) :
    ∃ d', renderSummarySugE txt d = Except.ok d' ∧ DomFrame d' d := by
  unfold renderSummarySugE
  by_cases h : d.sugSummaryText.isNone
  · rw [if_pos h]
    exact ⟨d, rfl, domFrame_refl d⟩
  · rw [if_neg h]
    rcases hs : d.sugSummaryText with _ | s
    · rw [hs] at h
      simp at h
    · simp only [getEl!, showBoxE_eq, exBind_ok]
      exact ⟨_, rfl, ⟨rfl, rfl, rfl, rfl, rfl, rfl, rfl, rfl, rfl, rfl, rfl, rfl, rfl⟩⟩

theorem renderWinsSugE_ok (bl : List String) (d : FullDom) :
    ∃ d', renderWinsSugE bl d = Except.ok d' ∧ DomFrame d' d := by
  unfold renderWinsSugE
  by_cases h : d.sugWinsList.isNone
  · rw [if_pos h]
    exact ⟨d, rfl, domFrame_refl d⟩
  · rw [if_neg h]
    simp only [setListE_eq, showBoxE_eq, exBind_ok]
    exact ⟨_, rfl, ⟨rfl, rfl, rfl, rfl, rfl, rfl, rfl, rfl, rfl, rfl, rfl, rfl, rfl⟩⟩

theorem renderSkillsSugE_ok (txt : String) (d : FullDom) :
    ∃ d', renderSkillsSugE txt d = Except.ok d' ∧ DomFrame d' d := by
  unfold renderSkillsSugE
  by_cases h : d.sugSkillsText.isNone
  · rw [if_pos h]
    exact ⟨d, rfl, domFrame_refl d⟩
  · rw [if_neg h]
    rcases hs : d.sugSkillsText with _ | s
    · rw [hs] at h
      simp at h
    · simp only [getEl!, showBoxE_eq, exBind_ok]
      exact ⟨_, rfl, ⟨rfl, rfl, rfl, rfl, rfl, rfl, rfl, rfl, rfl, rfl, rfl, rfl, rfl⟩⟩

theorem renderHintE_ok (hints : List String) (d : FullDom) :
    ∃ d', renderHintE hints d = Except.ok d' ∧ DomFrame d' d := by
  unfold renderHintE
  by_cases h : d.sugHint.isNone
  · rw [if_pos h]
    exact ⟨d, rfl, domFrame_refl d⟩
  · rw [if_neg h]
    rcases hs : d.sugHint with _ | s
    · rw [hs] at h
      simp at h
    · exact ⟨_, rfl, ⟨rfl, rfl, rfl, rfl, rfl, rfl, rfl, rfl, rfl, rfl, rfl, rfl, rfl⟩⟩

theorem renderClSugE_ok (txt : String) (d : FullDom) :
    ∃ d', renderClSugE txt d = Except.ok d' ∧ DomFrame d' d := by
  unfold renderClSugE
  by_cases h : d.clSugText.isNone
  · rw [if_pos h]
    exact ⟨d, rfl, domFrame_refl d⟩
  · rw [if_neg h]
    rcases hs : d.clSugText with _ | s
    · rw [hs] at h
      simp at h
    · simp only [getEl!, showBoxE_eq, exBind_ok]
      exact ⟨_, rfl, ⟨rfl, rfl, rfl, rfl, rfl, rfl, rfl, rfl, rfl, rfl, rfl, rfl, rfl⟩⟩

theorem setDataFontE_eq (w : Option ResultWrap) (font : String) :
    setDataFontE w font
      = Except.ok (w.map (fun x => { x with dataFont := some font })) := by
  cases w <;> rfl

theorem syncTemplateE_ok (d : FullDom) :
    ∃ d', syncTemplateE d = Except.ok d' ∧ DomFrame d' d := by
  unfold syncTemplateE
  by_cases h : jsTruthy d.templateSelect
  · rw [if_pos h]
    simp only [setHiddenE_eq, exBind_ok]
    exact ⟨_, rfl, ⟨rfl, rfl, rfl, rfl, rfl, rfl, by simp, rfl, rfl, rfl, rfl, rfl, rfl⟩⟩
  · rw [if_neg h]
    exact ⟨d, rfl, domFrame_refl d⟩

theorem syncFontE_ok (d : FullDom) :
    ∃ d', syncFontE d = Except.ok d' ∧ DomFrame d' d := by
  unfold syncFontE
  by_cases h : jsTruthy d.fontSelect
  · rw [if_pos h]
    simp only [setHiddenE_eq, setDataFontE_eq, exBind_ok]
    exact ⟨_, rfl, ⟨rfl, rfl, rfl, rfl, rfl, rfl, by simp, by simp, rfl, rfl, rfl, rfl, rfl⟩⟩
  · rw [if_neg h]
    exact ⟨d, rfl, domFrame_refl d⟩

theorem syncPagesE_ok (d : FullDom) :
    ∃ d', syncPagesE d = Except.ok d' ∧ DomFrame d' d := by
  unfold syncPagesE
  by_cases h : jsTruthy d.pageLimitSelect
  · rw [if_pos h]
    simp only [setHiddenE_eq, exBind_ok]
    exact ⟨_, rfl, ⟨rfl, rfl, rfl, rfl, rfl, rfl, by simp, rfl, rfl, rfl, rfl, rfl, rfl⟩⟩
  · rw [if_neg h]
    exact ⟨d, rfl, domFrame_refl d⟩

theorem syncPreviewSettingsE_ok (d : FullDom) :
    ∃ d', syncPreviewSettingsE d = Except.ok d' ∧ DomFrame d' d := by
  obtain ⟨d1, h1, f1⟩ := syncTemplateE_ok d
  obtain ⟨d2, h2, f2⟩ := syncFontE_ok d1
  obtain ⟨d3, h3, f3⟩ := syncPagesE_ok d2
  refine ⟨d3, ?_, domFrame_trans (domFrame_trans f1 f2) f3⟩
  unfold syncPreviewSettingsE
  rw [h1, exBind_ok, h2, exBind_ok, h3]

theorem makeJobCardE_eq :
    makeJobCardE = Except.ok ⟨⟨"", "", "", "", ""⟩, some ()⟩ := rfl

theorem scheduleAutoApplySummaryE_frame (st : ScriptState) (text : String) :
    (scheduleAutoApplySummaryE st text).dom = st.dom ∧
    (scheduleAutoApplySummaryE st text).requests = st.requests := by
  unfold scheduleAutoApplySummaryE
  split
  · exact ⟨rfl, rfl⟩
  · split
    · exact ⟨rfl, rfl⟩
    · exact ⟨rfl, rfl⟩

theorem scheduleClAutoApplyE_frame (st : ScriptState) (text : String) :
    (scheduleClAutoApplyE st text).dom = st.dom ∧
    (scheduleClAutoApplyE st text).requests = st.requests := by
  unfold scheduleClAutoApplyE
  split
  · exact ⟨rfl, rfl⟩
  · split
    · exact ⟨rfl, rfl⟩
    · exact ⟨rfl, rfl⟩

/-- Transfer of the invariant to a state whose DOM differs by a `DomFrame`
and whose timers are unchanged. -/
theorem invOfFrame (st : ScriptState) (d4 : FullDom) (R : List SentRequest)
    (h : Inv st) (hframe : DomFrame d4 st.dom) :
    Inv ⟨d4, st.resumeAutoPending, st.clAutoPending, R⟩ :=
  ⟨fun hp => by
      show d4.summaryEl.isSome = true
      rw [hframe.summaryEq]
      exact h.1 hp,
   fun hp => by
      show d4.clLetter.isSome = true
      rw [hframe.clLetterEq]
      exact h.2 hp⟩

theorem scheduleAutoApplySummaryE_inv (st : ScriptState) (text : String)
    (h : Inv st) : Inv (scheduleAutoApplySummaryE st text) := by
  unfold scheduleAutoApplySummaryE
  split
  · exact h
  · split
    · exact h
    · next h1 _ =>
        refine ⟨fun _ => ?_, fun hp => h.2 hp⟩
        simpa [Option.isSome_iff_ne_none] using
          (by simpa [Option.isNone_iff_eq_none] using h1 : st.dom.summaryEl ≠ none)

theorem scheduleClAutoApplyE_inv (st : ScriptState) (text : String)
    (h : Inv st) : Inv (scheduleClAutoApplyE st text) := by
  unfold scheduleClAutoApplyE
  split
  · exact h
  · split
    · exact h
    · next h1 _ =>
        refine ⟨fun hp => h.1 hp, fun _ => ?_⟩
        simpa [Option.isSome_iff_ne_none] using
          (by simpa [Option.isNone_iff_eq_none] using h1 : st.dom.clLetter ≠ none)

theorem fireResumeAutoApplyE_ok (st : ScriptState) (h : Inv st) :
    ∃ st', fireResumeAutoApplyE st = Except.ok st' ∧ Inv st' := by
  unfold fireResumeAutoApplyE
  rcases hp : st.resumeAutoPending with _ | text
  · simp only [hp, Option.isNone_none, if_true]
    exact ⟨st, rfl, h⟩
  · have hs : st.dom.summaryEl.isSome := h.1 (by rw [hp]; rfl)
    rcases hsum : st.dom.summaryEl with _ | v
    · rw [hsum] at hs
      simp at hs
    · simp only [hp, hsum, Option.isNone_some, if_false, Option.getD_some,
        Bool.false_eq_true, getEl!, exBind_ok]
      by_cases hz : (jsTrim text).length = 0
      · rw [if_pos hz]
        exact ⟨_, rfl, ⟨by simp, fun hcl => h.2 hcl⟩⟩
      · rw [if_neg hz]
        exact ⟨_, rfl, ⟨by simp, fun hcl => h.2 hcl⟩⟩

theorem fireClAutoApplyE_ok (st : ScriptState) (h : Inv st) :
    ∃ st', fireClAutoApplyE st = Except.ok st' ∧ Inv st' := by
  unfold fireClAutoApplyE
  rcases hp : st.clAutoPending with _ | text
  · simp only [hp, Option.isNone_none, if_true]
    exact ⟨st, rfl, h⟩
  · have hs : st.dom.clLetter.isSome := h.2 (by rw [hp]; rfl)
    rcases hcl : st.dom.clLetter with _ | v
    · rw [hcl] at hs
      simp at hs
    · simp only [hp, hcl, Option.isNone_some, if_false, Option.getD_some,
        Bool.false_eq_true, getEl!, exBind_ok]
      by_cases hz : (jsTrim text).length = 0
      · rw [if_pos hz]
        exact ⟨_, rfl, ⟨fun hrp => h.1 hrp, by simp⟩⟩
      · rw [if_neg hz]
        exact ⟨_, rfl, ⟨fun hrp => h.1 hrp, by simp⟩⟩

theorem requestResumePolishE_ok (st : ScriptState) (res : PolishFetch) (h : Inv st) :
    ∃ st', requestResumePolishE st res = Except.ok st' ∧ Inv st' ∧
      st'.requests = st.requests ++ resumeReqIf st.dom ∧
      DomFrame st'.dom st.dom := by
  unfold requestResumePolishE
  by_cases hg : st.dom.summaryEl.isNone ∧ st.dom.winsEl.isNone ∧
      st.dom.skillsEl.isNone ∧ st.dom.jobsWrap.isNone
  · rw [if_pos hg]
    refine ⟨st, rfl, h, ?_, domFrame_refl _⟩
    simp [resumeReqIf, hg]
  · rw [if_neg hg]
    have hg' : ¬(st.dom.summaryEl = none ∧ st.dom.winsEl = none ∧
        st.dom.skillsEl = none ∧ st.dom.jobsWrap = none) := by
      simpa [Option.isNone_iff_eq_none] using hg
    cases res with
    | threw =>
        refine ⟨_, rfl, ⟨h.1, h.2⟩, ?_, domFrame_refl _⟩
        simp [resumeReqIf, hg']
    | notOk =>
        refine ⟨_, rfl, ⟨h.1, h.2⟩, ?_, domFrame_refl _⟩
        simp [resumeReqIf, hg']
    | ok data =>
        obtain ⟨d1, hd1, f1⟩ :=
          renderSummarySugE_ok (jsTrim (data.polished_summary.getD "")) st.dom
        obtain ⟨d2, hd2, f2⟩ := renderWinsSugE_ok (data.bullets.getD []) d1
        obtain ⟨d3, hd3, f3⟩ :=
          renderSkillsSugE_ok (String.intercalate ", " (data.skills_suggested.getD [])) d2
        obtain ⟨d4, hd4, f4⟩ := renderHintE_ok (data.metric_hints.getD []) d3
        have hframe : DomFrame d4 st.dom :=
          domFrame_trans (domFrame_trans (domFrame_trans f1 f2) f3) f4
        have hSTInv :
            Inv ⟨d4, st.resumeAutoPending, st.clAutoPending,
              st.requests ++ [SentRequest.polish (collectResumePayload (toResumeDom st.dom))]⟩ :=
          invOfFrame st d4 _ h hframe
        simp only [hd1, hd2, hd3, hd4, exBind_ok]
        split
        · refine ⟨_, rfl, ?_, ?_, ?_⟩
          · exact scheduleAutoApplySummaryE_inv _ _ hSTInv
          · rw [(scheduleAutoApplySummaryE_frame _ _).2]
            simp [resumeReqIf, hg']
          · rw [(scheduleAutoApplySummaryE_frame _ _).1]
            exact hframe
        · refine ⟨_, rfl, hSTInv, ?_, hframe⟩
          simp [resumeReqIf, hg']

theorem requestCoverPolishE_ok (st : ScriptState) (res : CoverFetch) (h : Inv st) :
    ∃ st', requestCoverPolishE st res = Except.ok st' ∧ Inv st' ∧
      st'.requests = st.requests ++ coverReqIf st.dom ∧
      DomFrame st'.dom st.dom := by
  unfold requestCoverPolishE
  by_cases hg : st.dom.clLetter.isNone ∧ st.dom.clCompany.isNone ∧
      st.dom.clRole.isNone
  · rw [if_pos hg]
    refine ⟨st, rfl, h, ?_, domFrame_refl _⟩
    simp [coverReqIf, hg]
  · rw [if_neg hg]
    have hg' : ¬(st.dom.clLetter = none ∧ st.dom.clCompany = none ∧
        st.dom.clRole = none) := by
      simpa [Option.isNone_iff_eq_none] using hg
    cases res with
    | threw =>
        refine ⟨_, rfl, ⟨h.1, h.2⟩, ?_, domFrame_refl _⟩
        simp [coverReqIf, hg']
    | notOk =>
        refine ⟨_, rfl, ⟨h.1, h.2⟩, ?_, domFrame_refl _⟩
        simp [coverReqIf, hg']
    | ok data =>
        obtain ⟨d1, hd1, f1⟩ :=
          renderClSugE_ok (jsTrim (data.cover_letter_suggested.getD "")) st.dom
        have hSTInv :
            Inv ⟨d1, st.resumeAutoPending, st.clAutoPending,
              st.requests ++ [SentRequest.polishCover (collectCoverPayload (toCoverDom st.dom))]⟩ :=
          invOfFrame st d1 _ h f1
        simp only [hd1, exBind_ok]
        split
        · refine ⟨_, rfl, ?_, ?_, ?_⟩
          · exact scheduleClAutoApplyE_inv _ _ hSTInv
          · rw [(scheduleClAutoApplyE_frame _ _).2]
            simp [coverReqIf, hg']
          · rw [(scheduleClAutoApplyE_frame _ _).1]
            exact f1
        · refine ⟨_, rfl, hSTInv, ?_, f1⟩
          simp [coverReqIf, hg']

/-- The request list `coverReqIf` only depends on the cover elements. -/
theorem coverReqIf_congr {a b : FullDom} (h : toCoverDom a = toCoverDom b) :
    coverReqIf a = coverReqIf b := by
  have hl : a.clLetter = b.clLetter := congrArg CoverDom.clLetter h
  have hc : a.clCompany = b.clCompany := congrArg CoverDom.clCompany h
  have hr : a.clRole = b.clRole := congrArg CoverDom.clRole h
  unfold coverReqIf collectCoverPayload
  rw [hl, hc, hr, h]

theorem doSwapE_ok (st : ScriptState) (res : FetchResult) (h : Inv st) :
    ∃ st', doSwapE st res = Except.ok st' ∧ Inv st' := by
  unfold doSwapE
  by_cases hg : st.dom.payloadForm.isNone ∨ st.dom.resultWrap.isNone
  · rw [if_pos hg]
    exact ⟨st, rfl, h⟩
  · rw [if_neg hg]
    push_neg at hg
    obtain ⟨d1, hd1, f1⟩ := syncPreviewSettingsE_ok st.dom
    have hpf : d1.payloadForm.isSome := by
      rw [f1.payloadSomeEq]
      simpa [Option.isSome_iff_ne_none, Option.isNone_iff_eq_none] using hg.1
    rcases hpfv : d1.payloadForm with _ | kvs
    · rw [hpfv] at hpf
      simp at hpf
    · obtain ⟨d2, hd2, f2⟩ := showDissolveE_ok d1 true
      have hframe2 : DomFrame d2 st.dom := domFrame_trans f1 f2
      cases res with
      | notOk =>
          simp only [hd1, hd2, exBind_ok, hpfv, getEl!]
          exact ⟨_, rfl, invOfFrame st d2 _ h hframe2⟩
      | threw =>
          obtain ⟨d3, hd3, f3⟩ := showDissolveE_ok d2 false
          simp only [hd1, hd2, hd3, exBind_ok, hpfv, getEl!]
          exact ⟨_, rfl, invOfFrame st d3 _ h (domFrame_trans hframe2 f3)⟩
      | ok html =>
          have hrw : d2.resultWrap.isSome := by
            rw [f2.resultSomeEq, f1.resultSomeEq]
            simpa [Option.isSome_iff_ne_none, Option.isNone_iff_eq_none] using hg.2
          rcases hrwv : d2.resultWrap with _ | w
          · rw [hrwv] at hrw
            simp at hrw
          · obtain ⟨d4, hd4, f4⟩ :=
              showDissolveE_ok { d2 with resultWrap := some { w with innerHTML := html } } false
            have hf3 : DomFrame { d2 with resultWrap := some { w with innerHTML := html } } d2 :=
              ⟨rfl, rfl, rfl, rfl, rfl, rfl, rfl, by simp [hrwv], rfl, rfl, rfl, rfl, rfl⟩
            simp only [hd1, hd2, hd4, exBind_ok, hpfv, hrwv, getEl!]
            exact ⟨_, rfl,
              invOfFrame st d4 _ h (domFrame_trans (domFrame_trans hframe2 hf3) f4)⟩

theorem jobsInitE_ok (d : FullDom) :
    ∃ d', jobsInitE d = Except.ok d' ∧ DomFrame d' d ∧
      resumeReqIf d' = resumeReqIf d ∧ coverReqIf d' = coverReqIf d := by
  unfold jobsInitE
  by_cases hg : d.jobsWrap.isNone ∨ d.addJobBtn.isNone
  · rw [if_pos hg]
    exact ⟨d, rfl, domFrame_refl d, rfl, rfl⟩
  · rw [if_neg hg]
    push_neg at hg
    rcases hw : d.jobsWrap with _ | cards
    · exfalso
      apply hg.1
      rw [hw]
      rfl
    · simp only [getEl!, exBind_ok]
      by_cases hc : cards.length = 0
      · rw [if_pos hc]
        have hcnil : cards = [] := List.length_eq_zero.mp hc
        subst hcnil
        simp only [makeJobCardE_eq, exBind_ok]
        obtain ⟨d', hd', fd', hjw⟩ :=
          syncJobsJsonE_ok { d with jobsWrap := some ([] ++ [⟨"", "", "", "", ""⟩]) }
        rw [hd']
        have hstep : DomFrame
            { d with jobsWrap := some ([] ++ [⟨"", "", "", "", ""⟩]) } d :=
          ⟨rfl, rfl, rfl, rfl, rfl, rfl, rfl, rfl, rfl, rfl, rfl, rfl, rfl⟩
        have hframe1 : DomFrame d' d := domFrame_trans hstep fd'
        have hjw2 : d'.jobsWrap = some [⟨"", "", "", "", ""⟩] := by
          rw [hjw]
          simp
        have hce : cardNonEmpty ⟨"", "", "", "", ""⟩ = false := by decide
        refine ⟨d', rfl, hframe1, ?_, coverReqIf_congr hframe1.coverEq⟩
        unfold resumeReqIf
        rw [hframe1.summaryEq, hframe1.winsEq, hframe1.skillsEq, hjw2, hw]
        simp only [Option.isNone_some, Bool.false_eq_true, and_false, if_false]
        simp [collectResumePayload, toResumeDom, collectJobsDom, collectJobs,
          hframe1.summaryEq, hframe1.winsEq, hframe1.skillsEq,
          hframe1.strengthsEq, hframe1.targetTitleEq, hframe1.yearsEq,
          hjw2, hw, hce]
      · rw [if_neg hc]
        exact ⟨d, rfl, domFrame_refl d, rfl, rfl⟩

theorem overwriteVal_isSome (o : Option String) (v : String) :
    (overwriteVal o v).isSome = o.isSome := by
  cases o <;> rfl

theorem overwriteFlag_isSome (o : Option Bool) (b : Bool) :
    (overwriteFlag o b).isSome = o.isSome := by
  cases o <;> rfl

theorem addJobClickE_ok (st : ScriptState) (res : PolishFetch) (h : Inv st) :
    ∃ st', addJobClickE st res = Except.ok st' ∧ Inv st' := by
  unfold addJobClickE
  by_cases hg : st.dom.jobsWrap.isNone ∨ st.dom.addJobBtn.isNone
  · rw [if_pos hg]
    exact ⟨st, rfl, h⟩
  · rw [if_neg hg]
    push_neg at hg
    rcases hw : st.dom.jobsWrap with _ | cards
    · exfalso
      apply hg.1
      rw [hw]
      rfl
    · simp only [getEl!, exBind_ok]
      by_cases hc : cards.length ≥ 3
      · rw [if_pos hc]
        exact ⟨st, rfl, h⟩
      · rw [if_neg hc]
        simp only [makeJobCardE_eq, exBind_ok]
        obtain ⟨d', hd', fd', hjw⟩ :=
          syncJobsJsonE_ok { st.dom with jobsWrap := some (cards ++ [⟨"", "", "", "", ""⟩]) }
        rw [hd', exBind_ok]
        have hInv2 : Inv { st with dom := d' } :=
          ⟨fun hp => by
              show d'.summaryEl.isSome = true
              rw [fd'.summaryEq]
              exact h.1 hp,
           fun hp => by
              show d'.clLetter.isSome = true
              rw [fd'.clLetterEq]
              exact h.2 hp⟩
        obtain ⟨st2, hst2, hInv3, _, _⟩ :=
          requestResumePolishE_ok { st with dom := d' } res hInv2
        exact ⟨st2, hst2, hInv3⟩

theorem removeJobClickE_ok (st : ScriptState) (i : Nat) (res : PolishFetch)
    (h : Inv st) :
    ∃ st', removeJobClickE st i res = Except.ok st' ∧ Inv st' := by
  unfold removeJobClickE
  by_cases hg : st.dom.jobsWrap.isNone
  · rw [if_pos hg]
    exact ⟨st, rfl, h⟩
  · rw [if_neg hg]
    rcases hw : st.dom.jobsWrap with _ | cards
    · rw [hw] at hg
      simp at hg
    · simp only [getEl!, exBind_ok]
      obtain ⟨d', hd', fd', hjw⟩ :=
        syncJobsJsonE_ok { st.dom with jobsWrap := some (cards.eraseIdx i) }
      rw [hd', exBind_ok]
      have hInv2 : Inv { st with dom := d' } :=
        ⟨fun hp => by
            show d'.summaryEl.isSome = true
            rw [fd'.summaryEq]
            exact h.1 hp,
         fun hp => by
            show d'.clLetter.isSome = true
            rw [fd'.clLetterEq]
            exact h.2 hp⟩
      obtain ⟨st2, hst2, hInv3, _, _⟩ :=
        requestResumePolishE_ok { st with dom := d' } res hInv2
      exact ⟨st2, hst2, hInv3⟩

theorem jobCardInputE_ok (st : ScriptState) (i : Nat) (c : JobCardFields)
    (h : Inv st) :
    ∃ st', jobCardInputE st i c = Except.ok st' ∧ Inv st' := by
  unfold jobCardInputE
  by_cases hg : st.dom.jobsWrap.isNone
  · rw [if_pos hg]
    exact ⟨st, rfl, h⟩
  · rw [if_neg hg]
    rcases hw : st.dom.jobsWrap with _ | cards
    · rw [hw] at hg
      simp at hg
    · simp only [getEl!, exBind_ok]
      obtain ⟨d', hd', fd', hjw⟩ :=
        syncJobsJsonE_ok { st.dom with jobsWrap := some (cards.set i c) }
      rw [hd', exBind_ok]
      refine ⟨_, rfl, ?_⟩
      exact ⟨fun hp => by
          show d'.summaryEl.isSome = true
          rw [fd'.summaryEq]
          exact h.1 hp,
        fun hp => by
          show d'.clLetter.isSome = true
          rw [fd'.clLetterEq]
          exact h.2 hp⟩

theorem builderSubmitE_ok (st : ScriptState) (h : Inv st) :
    ∃ st', builderSubmitE st = Except.ok st' ∧ Inv st' := by
  unfold builderSubmitE
  by_cases hg : st.dom.builderForm.isNone
  · rw [if_pos hg]
    exact ⟨st, rfl, h⟩
  · rw [if_neg hg]
    obtain ⟨d1, hd1, f1, _⟩ := syncJobsJsonE_ok st.dom
    obtain ⟨d2, hd2, f2⟩ := showDissolveE_ok d1 true
    simp only [hd1, hd2, exBind_ok]
    exact ⟨_, rfl, invOfFrame st d2 _ h (domFrame_trans f1 f2)⟩

theorem coverInputE_inv (st : ScriptState) (vals : CoverPayload) (h : Inv st) :
    Inv (coverInputE st vals) := by
  unfold coverInputE
  split
  · exact h
  · exact ⟨fun hp => h.1 hp,
      fun hp => by
        show (overwriteVal st.dom.clLetter vals.cover_letter).isSome = true
        rw [overwriteVal_isSome]
        exact h.2 hp⟩

theorem clPolishClickE_ok (st : ScriptState) (res : CoverFetch) (h : Inv st) :
    ∃ st', clPolishClickE st res = Except.ok st' ∧ Inv st' := by
  unfold clPolishClickE
  by_cases hg : st.dom.coverForm.isNone ∨ st.dom.clPolishBtn.isNone
  · rw [if_pos hg]
    exact ⟨st, rfl, h⟩
  · rw [if_neg hg]
    obtain ⟨st2, hst2, hInv2, _, _⟩ := requestCoverPolishE_ok st res h
    exact ⟨st2, hst2, hInv2⟩

theorem templateChangeE_ok (st : ScriptState) (v : String) (res : FetchResult)
    (h : Inv st) :
    ∃ st', templateChangeE st v res = Except.ok st' ∧ Inv st' := by
  unfold templateChangeE
  by_cases hg : st.dom.templateSelect.isNone ∨ st.dom.resultWrap.isNone
      ∨ st.dom.payloadForm.isNone
  · rw [if_pos hg]
    exact ⟨st, rfl, h⟩
  · rw [if_neg hg]
    exact doSwapE_ok _ res ⟨fun hp => h.1 hp, fun hp => h.2 hp⟩

theorem fontChangeE_ok (st : ScriptState) (v : String) (res : FetchResult)
    (h : Inv st) :
    ∃ st', fontChangeE st v res = Except.ok st' ∧ Inv st' := by
  unfold fontChangeE
  by_cases hg : st.dom.fontSelect.isNone ∨ st.dom.resultWrap.isNone
      ∨ st.dom.payloadForm.isNone
  · rw [if_pos hg]
    exact ⟨st, rfl, h⟩
  · rw [if_neg hg]
    exact doSwapE_ok _ res ⟨fun hp => h.1 hp, fun hp => h.2 hp⟩

theorem pageLimitChangeE_ok (st : ScriptState) (v : String) (h : Inv st) :
    ∃ st', pageLimitChangeE st v = Except.ok st' ∧ Inv st' := by
  unfold pageLimitChangeE
  by_cases hg : st.dom.pageLimitSelect.isNone
  · rw [if_pos hg]
    exact ⟨st, rfl, h⟩
  · rw [if_neg hg]
    obtain ⟨d1, hd1, f1⟩ :=
      syncPreviewSettingsE_ok { st.dom with pageLimitSelect := some v }
    rw [hd1, exBind_ok]
    refine ⟨_, rfl, ?_⟩
    exact ⟨fun hp => by
        show d1.summaryEl.isSome = true
        rw [f1.summaryEq]
        exact h.1 hp,
      fun hp => by
        show d1.clLetter.isSome = true
        rw [f1.clLetterEq]
        exact h.2 hp⟩

theorem downloadSubmitE_ok (st : ScriptState) (h : Inv st) :
    ∃ st', downloadSubmitE st = Except.ok st' ∧ Inv st' := by
  unfold downloadSubmitE
  by_cases hg : st.dom.downloadForm.isNone
  · rw [if_pos hg]
    exact ⟨st, rfl, h⟩
  · rw [if_neg hg]
    obtain ⟨d1, hd1, f1⟩ := syncPreviewSettingsE_ok st.dom
    obtain ⟨d2, hd2, f2⟩ := showDissolveE_ok d1 true
    obtain ⟨d3, hd3, f3⟩ := showDissolveE_ok d2 false
    simp only [hd1, hd2, hd3, exBind_ok]
    exact ⟨_, rfl,
      invOfFrame st d3 _ h (domFrame_trans (domFrame_trans f1 f2) f3)⟩

theorem stepE_ok (st : ScriptState) (e : PageEvent) (h : Inv st) :
    ∃ st', stepE st e = Except.ok st' ∧ Inv st' := by
  cases e with
  | navClick =>
      obtain ⟨d1, hd1, f1⟩ := showDissolveE_ok st.dom true
      simp only [stepE, hd1, exBind_ok]
      exact ⟨_, rfl, invOfFrame st d1 _ h f1⟩
  | addJobClick res => exact addJobClickE_ok st res h
  | removeJobClick i res => exact removeJobClickE_ok st i res h
  | jobCardInput i c => exact jobCardInputE_ok st i c h
  | builderSubmit => exact builderSubmitE_ok st h
  | summaryInput v =>
      refine ⟨_, rfl, ⟨fun hp => ?_, fun hp => h.2 hp⟩⟩
      show (overwriteVal st.dom.summaryEl v).isSome = true
      rw [overwriteVal_isSome]
      exact h.1 hp
  | winsInput v => exact ⟨_, rfl, ⟨fun hp => h.1 hp, fun hp => h.2 hp⟩⟩
  | skillsInput v => exact ⟨_, rfl, ⟨fun hp => h.1 hp, fun hp => h.2 hp⟩⟩
  | strengthsInput v => exact ⟨_, rfl, ⟨fun hp => h.1 hp, fun hp => h.2 hp⟩⟩
  | targetTitleInput v => exact ⟨_, rfl, ⟨fun hp => h.1 hp, fun hp => h.2 hp⟩⟩
  | yearsInput v => exact ⟨_, rfl, ⟨fun hp => h.1 hp, fun hp => h.2 hp⟩⟩
  | autoApplyToggle b => exact ⟨_, rfl, ⟨fun hp => h.1 hp, fun hp => h.2 hp⟩⟩
  | resumeDebounceFire res =>
      obtain ⟨st2, h2, hInv2, _, _⟩ := requestResumePolishE_ok st res h
      exact ⟨st2, h2, hInv2⟩
  | resumeAutoFire => exact fireResumeAutoApplyE_ok st h
  | coverInput vals => exact ⟨_, rfl, coverInputE_inv st vals h⟩
  | clToggle b => exact ⟨_, rfl, ⟨fun hp => h.1 hp, fun hp => h.2 hp⟩⟩
  | clPolishClick res => exact clPolishClickE_ok st res h
  | coverDebounceFire res =>
      obtain ⟨st2, h2, hInv2, _, _⟩ := requestCoverPolishE_ok st res h
      exact ⟨st2, h2, hInv2⟩
  | clAutoFire => exact fireClAutoApplyE_ok st h
  | templateChange v res => exact templateChangeE_ok st v res h
  | fontChange v res => exact fontChangeE_ok st v res h
  | pageLimitChange v => exact pageLimitChangeE_ok st v h
  | downloadSubmit => exact downloadSubmitE_ok st h

theorem runEventsE_ok :
    ∀ (events : List PageEvent) (st : ScriptState), Inv st →
      ∃ st', runEventsE st events = Except.ok st' ∧ Inv st' := by
  intro events
  induction events with
  | nil => exact fun st h => ⟨st, rfl, h⟩
  | cons e rest ih =>
      intro st h
      obtain ⟨st1, h1, hInv1⟩ := stepE_ok st e h
      obtain ⟨st2, h2, hInv2⟩ := ih st1 hInv1
      refine ⟨st2, ?_, hInv2⟩
      show (match stepE st e with
        | .error msg => .error msg
        | .ok st' => runEventsE st' rest) = Except.ok st2
      rw [h1]
      exact h2

theorem onLoadE_ok (st : ScriptState) (p : PolishFetch) (c : CoverFetch)
    (h : Inv st) :
    ∃ st', onLoadE st p c = Except.ok st' ∧ Inv st' ∧
      st'.requests = st.requests ++ resumeReqIf st.dom ++
        (if st.dom.coverForm.isSome then coverReqIf st.dom else []) := by
  unfold onLoadE
  obtain ⟨d1, hd1, f1, hr1, hc1⟩ := jobsInitE_ok st.dom
  have hInv1 : Inv { st with dom := d1 } :=
    ⟨fun hp => by
        show d1.summaryEl.isSome = true
        rw [f1.summaryEq]
        exact h.1 hp,
     fun hp => by
        show d1.clLetter.isSome = true
        rw [f1.clLetterEq]
        exact h.2 hp⟩
  obtain ⟨st2, h2, hInv2, hreq2, fd2⟩ :=
    requestResumePolishE_ok { st with dom := d1 } p hInv1
  have hcform : st2.dom.coverForm = st.dom.coverForm := by
    rw [fd2.coverFormEq]
    exact f1.coverFormEq
  have hcreq : coverReqIf st2.dom = coverReqIf st.dom := by
    rw [coverReqIf_congr fd2.coverEq]
    exact hc1
  simp only [hd1, exBind_ok, h2]
  by_cases hcf : st2.dom.coverForm.isSome
  · rw [if_pos hcf]
    obtain ⟨st3, h3, hInv3, hreq3, fd3⟩ := requestCoverPolishE_ok st2 c hInv2
    obtain ⟨d4, hd4, f4⟩ := syncPreviewSettingsE_ok st3.dom
    simp only [h3, exBind_ok, hd4]
    refine ⟨_, rfl, invOfFrame st3 d4 _ hInv3 f4, ?_⟩
    show st3.requests = _
    rw [hreq3, hreq2, hr1, hcreq]
    rw [if_pos (by rw [← hcform]; exact hcf)]
  · rw [if_neg hcf]
    obtain ⟨d4, hd4, f4⟩ := syncPreviewSettingsE_ok st2.dom
    simp only [exBind_ok, hd4]
    refine ⟨_, rfl, invOfFrame st2 d4 _ hInv2 f4, ?_⟩
    show st2.requests = _
    rw [hreq2, hr1]
    rw [if_neg (by rw [← hcform]; exact hcf)]
    simp

/-- C9: for every page variant (any subset of the expected DOM elements
absent), the whole load-time flow and every operation of the script
(synchronization, payload collection, suggestion rendering, auto-apply,
preview swap), for any sequence of events and any fetch outcomes, completes
without raising an error: every element dereference (`getEl!`) is dominated
by a guard, so its error branch is unreachable. -/
theorem C9_missing_elements_never_error (d : FullDom) (p : PolishFetch)
    (c : CoverFetch) (events : List PageEvent) :
    exceptOk (runScriptE d p c events) = true := by
  have h0 : Inv (initState d) :=
    ⟨fun hp => by simp [initState] at hp, fun hp => by simp [initState] at hp⟩
  obtain ⟨st1, h1, hInv1, _⟩ := onLoadE_ok (initState d) p c h0
  obtain ⟨st2, h2, _⟩ := runEventsE_ok events st1 hInv1
  unfold runScriptE
  rw [h1, exBind_ok, h2]
  rfl

/-- C10: on page load, before any user input, the script runs
`requestResumePolish()` unconditionally — it issues a `/polish` request
with the fields' initial values unless none of the summary, wins, skills
and jobs-container elements exist (`resumeReqIf`) — and runs
`requestCoverPolish()` exactly when the cover form exists, issuing a
`/polish_cover` request with the cover fields' initial values unless its
own guard elements are all absent (`coverReqIf`). -/
theorem C10_initial_polish_on_load (d : FullDom) (p : PolishFetch)
    (c : CoverFetch) :
    ∃ st', onLoadE (initState d) p c = Except.ok st' ∧
      st'.requests = resumeReqIf d ++
        (if d.coverForm.isSome then coverReqIf d else []) := by
  have h0 : Inv (initState d) :=
    ⟨fun hp => by simp [initState] at hp, fun hp => by simp [initState] at hp⟩
  obtain ⟨st', h1, _, h3⟩ := onLoadE_ok (initState d) p c h0
  exact ⟨st', h1, by simpa [initState] using h3⟩

end App
